import Mathlib

/-! # ecom-order-service: order validation and order store

A shallow embedding of the packages `internal/utils`, `internal/validator`,
`internal/model` and `internal/middleware` of the order service and of the handlers of
package `api`, and the properties proved about them.

Modelling conventions.

* Go `string` is `String`; Go `int` is `Int` (the code only compares and copies
  integers, it never does arithmetic on them).
* Go `float64` / `float32` are IEEE-754 bit patterns (`Float64`, `Float32`).  The
  only float operation in the code is the comparison with `0`, which holds for
  the two zeros `+0` and `-0` and for nothing else (in particular not for NaN).
* Go `error` is `Option Error` (`none` is `nil`).
* A `[]string` that may be `nil` is `Option (List String)` (`none` is `nil`).
* The MongoDB collection is the list of the stored `Order` documents in natural
  (insertion) order.  The driver calls `FindOne`, `InsertOne`, `UpdateOne`,
  `DeleteOne` act on that list; a transport or server failure of a call is an
  explicit `fault` argument (`none`: the call goes through).
* A `bson.M` query filter is represented by the predicate it denotes on stored
  documents (`Filter`); a `bson.M` of field values is an association list (`M`).
* Encoding an `Order` to BSON and decoding it back is taken to be lossless, so a
  stored document is the `Order` value itself.
* The loop of `InsertOrder` has no bound; its embedding takes the number of
  iterations it may run (`fuel`) and returns `none` when they do not suffice.
* A handler is a function of what it reads from the Echo context (the user set by the
  middleware, the outcome of `c.Bind`, the query parameters) and of the collection; it
  returns the status and the body it hands to `c.JSON`, and the collection after it.
-/

namespace OrderService

/-! ## Values -/

/-- Go `float64`, as its IEEE-754 binary64 bit pattern. -/
abbrev Float64 := Fin (2 ^ 64)

/-- Go `float32`, as its IEEE-754 binary32 bit pattern. -/
abbrev Float32 := Fin (2 ^ 32)

/-- Go `x == 0` on a `float64`: true exactly for `+0` and `-0`. -/
def Float64.isZero (x : Float64) : Bool := x.val % 2 ^ 63 == 0

/-- Go `x == 0` on a `float32`: true exactly for `+0` and `-0`. -/
def Float32.isZero (x : Float32) : Bool := x.val % 2 ^ 31 == 0

/-- The driver type `primitive.ObjectID`: twelve bytes. -/
abbrev ObjectID := Fin (2 ^ 96)

/-- The constant `primitive.NilObjectID`: the all-zero identifier. -/
def NilObjectID : ObjectID := 0

/-- Go `error` values that occur in the service. -/
inductive Error where
  /-- the sentinel `mongo.ErrNoDocuments` -/
  | ErrNoDocuments
  /-- any other error returned by a driver call (transport failure, write exception) -/
  | driver (msg : String)
  /-- an error made by `fmt.Errorf(msg)` -/
  | errorf (msg : String)
  deriving DecidableEq, Repr

/-! ## internal/model: the Order document -/

/-- Order contain order detail (`model.Order`). -/
structure Order where
  ID : ObjectID
  OrderNumber : String
  Status : String
  Qty : Int
  TotalPrice : Float64
  BuyerID : Int
  BuyerFullName : String
  BuyerAddress : String
  ProductID : Int
  ProductSKU : String
  ProductName : String
  ProductPrice : Float64
  ProductWeight : Float32
  ProductDescription : String
  ProductStock : Int
  ProductUserID : Int
  ProductUserFullName : String
  ProductImagesPath : Option (List String)
  deriving DecidableEq, Repr

/-- The zero value `Order{}` of Go. -/
def Order.zero : Order :=
  { ID := NilObjectID, OrderNumber := "", Status := "", Qty := 0, TotalPrice := 0,
    BuyerID := 0, BuyerFullName := "", BuyerAddress := "", ProductID := 0,
    ProductSKU := "", ProductName := "", ProductPrice := 0, ProductWeight := 0,
    ProductDescription := "", ProductStock := 0, ProductUserID := 0,
    ProductUserFullName := "", ProductImagesPath := none }

/-! ## BSON documents and the MongoDB driver -/

/-- A Go value that the service puts in a `bson.M`. -/
inductive BValue where
  | string (s : String)
  | int (i : Int)
  | float64 (x : Float64)
  | float32 (x : Float32)
  | strings (l : List String)
  deriving DecidableEq, Repr

/-- The map type `bson.M` of the driver, as an association list; the newest binding
of a key is the first one. -/
abbrev M := List (String × BValue)

/-- The Go assignment `m[key] = v` on a `bson.M`. -/
def M.set (m : M) (key : String) (v : BValue) : M := (key, v) :: m

/-- The keys bound in a `bson.M`. -/
def M.keys (m : M) : List String := m.map Prod.fst

/-- A query filter, given by the stored documents it selects. -/
abbrev Filter := Order → Bool

/-- The filter `bson.D{{"order_number", orderNumber}}` (also `bson.M{"order_number": ...}`):
equality on the string field `order_number`. -/
def byOrderNumber (orderNumber : String) : Filter :=
  fun d => d.OrderNumber == orderNumber

/-- The collection `orders`: its documents in natural order. -/
abbrev Collection := List Order

/-- The update operator `$set` applied to one stored document: every field whose key
is bound in `set` to a value of the field's type takes that value.  The identity
`_id` is immutable in MongoDB and `$set` never changes it; a binding whose key or
value type is not one of the struct `Order` has no place in the typed document and
is left out (`UpdateOrder` makes no such binding). -/
def applySet (d : Order) (set : M) : Order :=
  { ID := d.ID
    OrderNumber :=
      match set.lookup "order_number" with | some (.string s) => s | _ => d.OrderNumber
    Status :=
      match set.lookup "status" with | some (.string s) => s | _ => d.Status
    Qty :=
      match set.lookup "qty" with | some (.int i) => i | _ => d.Qty
    TotalPrice :=
      match set.lookup "total_price" with | some (.float64 x) => x | _ => d.TotalPrice
    BuyerID :=
      match set.lookup "buyer_id" with | some (.int i) => i | _ => d.BuyerID
    BuyerFullName :=
      match set.lookup "buyer_full_name" with | some (.string s) => s | _ => d.BuyerFullName
    BuyerAddress :=
      match set.lookup "buyer_address" with | some (.string s) => s | _ => d.BuyerAddress
    ProductID :=
      match set.lookup "product_id" with | some (.int i) => i | _ => d.ProductID
    ProductSKU :=
      match set.lookup "product_sku" with | some (.string s) => s | _ => d.ProductSKU
    ProductName :=
      match set.lookup "product_name" with | some (.string s) => s | _ => d.ProductName
    ProductPrice :=
      match set.lookup "product_price" with | some (.float64 x) => x | _ => d.ProductPrice
    ProductWeight :=
      match set.lookup "product_weight" with | some (.float32 x) => x | _ => d.ProductWeight
    ProductDescription :=
      match set.lookup "product_description" with
      | some (.string s) => s | _ => d.ProductDescription
    ProductStock :=
      match set.lookup "product_stock" with | some (.int i) => i | _ => d.ProductStock
    ProductUserID :=
      match set.lookup "product_user_id" with | some (.int i) => i | _ => d.ProductUserID
    ProductUserFullName :=
      match set.lookup "product_user_full_name" with
      | some (.string s) => s | _ => d.ProductUserFullName
    ProductImagesPath :=
      match set.lookup "product_images_path" with
      | some (.strings l) => some l | _ => d.ProductImagesPath }

/-- Driver call `oc.FindOne(ctx, filter).Decode(&o)`: the first document selected by
the filter, `mongo.ErrNoDocuments` when there is none. -/
def FindOne (oc : Collection) (filter : Filter) (fault : Option String) :
    Except Error Order :=
  match fault with
  | some msg => .error (.driver msg)
  | none =>
    match oc.find? filter with
    | some d => .ok d
    | none => .error .ErrNoDocuments

/-- Driver call `oc.InsertOne(ctx, o)`.  The field `ID` carries the tag
`bson:"_id,omitempty"`: a nil `ID` is left out of the document and the driver
gives it the new identifier `newID`; any other `ID` is sent as the `_id` of the
document.  The `_id` index is unique: a second document with the same `_id` is
refused.  Returns `InsertedID` and the collection after the call. -/
def InsertOne (oc : Collection) (o : Order) (fault : Option String) (newID : ObjectID) :
    Except Error ObjectID × Collection :=
  match fault with
  | some msg => (.error (.driver msg), oc)
  | none =>
    let id := if o.ID = NilObjectID then newID else o.ID
    if oc.any (fun d => d.ID == id) then
      (.error (.driver "E11000 duplicate key error"), oc)
    else
      (.ok id, oc ++ [{ o with ID := id }])

/-- The result type `mongo.UpdateResult` (the field the service reads). -/
structure UpdateResult where
  MatchedCount : Nat
  deriving DecidableEq, Repr

/-- The documents after `UpdateOne`: the first selected document gets the `$set`. -/
def updateFirst (filter : Filter) (set : M) : Collection → Collection
  | [] => []
  | d :: ds => if filter d then applySet d set :: ds else d :: updateFirst filter set ds

/-- Driver call `oc.UpdateOne(ctx, filter, bson.M{"$set": set})`: at most one document,
the first selected one, is updated.  An empty `$set` is accepted and changes nothing
(the repository's test of `UpdateOrder` with an all-zero order relies on it). -/
def UpdateOne (oc : Collection) (filter : Filter) (set : M) (fault : Option String) :
    Except Error UpdateResult × Collection :=
  match fault with
  | some msg => (.error (.driver msg), oc)
  | none => (.ok { MatchedCount := if oc.any filter then 1 else 0 }, updateFirst filter set oc)

/-- Driver call `oc.DeleteOne(ctx, filter)`: at most one document, the first selected
one, is removed.  Returns the deleted count and the collection after the call. -/
def DeleteOne (oc : Collection) (filter : Filter) (fault : Option String) :
    Except Error Nat × Collection :=
  match fault with
  | some msg => (.error (.driver msg), oc)
  | none => (.ok (if oc.any filter then 1 else 0), oc.eraseP filter)

/-! ## internal/utils -/

/-- The alphabet `base` of `GetRandomOrderNumber`. -/
def base : List Char :=
  "0123456789abcdefghijklmnopqrstuvwxyzABCDEFGHIJKLMNOPQRSTUVWXYZ".toList

/-- GetRandomOrderNumber get random order number.  `rnd i` is the random number
behind the `i`-th call `rand.Intn(len(base))`, which yields `rnd i % len(base)`. -/
def GetRandomOrderNumber (rnd : Nat → Nat) : String :=
  let n := 15
  String.mk ((List.range n).map (fun i => base.getD (rnd i % base.length) '0'))

/-! ## internal/model -/

/-- What the environment contributes to one call of `InsertOrder`. -/
structure InsertEnv where
  /-- the random source of the `k`-th call of `GetRandomOrderNumber` -/
  rand : Nat → Nat → Nat
  /-- the failure, if any, of the `k`-th `FindOne` -/
  findFault : Nat → Option String
  /-- the failure, if any, of the `InsertOne` -/
  insertFault : Option String
  /-- the identifier the driver generates for a document without `_id` -/
  newID : ObjectID

/-- The loop of `InsertOrder`: "get random order number until new one found by
checking it in collection".  Iteration `k` leaves the loop only when `FindOne`
returns `mongo.ErrNoDocuments`; on a hit and on any other error it goes round
again.  `fuel` bounds the number of iterations run; `none`: still looping. -/
def InsertOrder.loop (oc : Collection) (env : InsertEnv) : Nat → Nat → Option String
  | 0, _ => none
  | fuel + 1, k =>
    let orderNumber := GetRandomOrderNumber (env.rand k)
    match FindOne oc (byOrderNumber orderNumber) (env.findFault k) with
    | .error .ErrNoDocuments => some orderNumber
    | _ => InsertOrder.loop oc env fuel (k + 1)

/-- InsertOrder insert order document to orders collection.  Returns the Go result
pair `(Order, error)` and the collection after the call; `none` when the loop has
not ended within `fuel` iterations. -/
def InsertOrder (oc : Collection) (env : InsertEnv) (fuel : Nat) (o : Order) :
    Option ((Order × Option Error) × Collection) :=
  match InsertOrder.loop oc env fuel 0 with
  | none => none
  | some orderNumber =>
    let o := { o with OrderNumber := orderNumber }
    match InsertOne oc o env.insertFault env.newID with
    | (.error err, oc') => some ((o, some err), oc')
    | (.ok insertedID, oc') => some (({ o with ID := insertedID }, none), oc')

/-- GetOrder get order document by some key from orders collection. -/
def GetOrder (oc : Collection) (filter : Filter) (fault : Option String) :
    Order × Option Error :=
  match FindOne oc filter fault with
  | .error err => (Order.zero, some err)
  | .ok o => (o, none)

/-- The merge set `value` that `UpdateOrder` builds: "set fields that need to be
updated". -/
def UpdateOrder.value (oUpdate : Order) : M :=
  let value : M := []
  let value := if oUpdate.Status != "" then value.set "status" (.string oUpdate.Status) else value
  let value := if oUpdate.Qty != 0 then value.set "qty" (.int oUpdate.Qty) else value
  let value := if !oUpdate.TotalPrice.isZero then
    value.set "total_price" (.float64 oUpdate.TotalPrice) else value
  let value := if oUpdate.BuyerID != 0 then value.set "buyer_id" (.int oUpdate.BuyerID) else value
  let value := if oUpdate.BuyerFullName != "" then
    value.set "buyer_full_name" (.string oUpdate.BuyerFullName) else value
  let value := if oUpdate.BuyerAddress != "" then
    value.set "buyer_address" (.string oUpdate.BuyerAddress) else value
  let value := if oUpdate.ProductID != 0 then
    value.set "product_id" (.int oUpdate.ProductID) else value
  let value := if oUpdate.ProductSKU != "" then
    value.set "product_sku" (.string oUpdate.ProductSKU) else value
  let value := if oUpdate.ProductName != "" then
    value.set "product_name" (.string oUpdate.ProductName) else value
  let value := if !oUpdate.ProductPrice.isZero then
    value.set "product_price" (.float64 oUpdate.ProductPrice) else value
  let value := if !oUpdate.ProductWeight.isZero then
    value.set "product_weight" (.float32 oUpdate.ProductWeight) else value
  let value := if oUpdate.ProductDescription != "" then
    value.set "product_description" (.string oUpdate.ProductDescription) else value
  let value := if oUpdate.ProductStock != 0 then
    value.set "product_stock" (.int oUpdate.ProductStock) else value
  let value := if oUpdate.ProductUserID != 0 then
    value.set "product_user_id" (.int oUpdate.ProductUserID) else value
  let value := if oUpdate.ProductUserFullName != "" then
    value.set "product_user_full_name" (.string oUpdate.ProductUserFullName) else value
  let value := match oUpdate.ProductImagesPath with
    | some l => value.set "product_images_path" (.strings l)
    | none => value
  value

/-- UpdateOrder update order document by some key in orders collection.  Returns the
Go `error` and the collection after the call. -/
def UpdateOrder (oc : Collection) (filter : Filter) (oUpdate : Order)
    (fault : Option String) : Option Error × Collection :=
  match UpdateOne oc filter (UpdateOrder.value oUpdate) fault with
  | (.error err, oc') => (some err, oc')
  | (.ok result, oc') =>
    if result.MatchedCount == 0 then (some (.errorf "no data updated"), oc')
    else (none, oc')

/-- DeleteOrder delete order document by some key in orders collection.  Returns the
Go `error` and the collection after the call. -/
def DeleteOrder (oc : Collection) (filter : Filter) (fault : Option String) :
    Option Error × Collection :=
  match DeleteOne oc filter fault with
  | (.error err, oc') => (some err, oc')
  | (.ok _, oc') => (none, oc')

/-! ## Go standard library: strings.TrimSpace -/

/-- Go `unicode.IsSpace`: the code points with the Unicode White_Space property. -/
def isSpace (c : Char) : Bool :=
  let r := c.toNat
  (0x09 ≤ r && r ≤ 0x0D) || r == 0x20 || r == 0x85 || r == 0xA0 || r == 0x1680 ||
  (0x2000 ≤ r && r ≤ 0x200A) || r == 0x2028 || r == 0x2029 || r == 0x202F ||
  r == 0x205F || r == 0x3000

/-- Go `strings.TrimSpace`: drop the leading and the trailing white space. -/
def TrimSpace (s : String) : String :=
  String.mk ((s.toList.dropWhile isSpace).reverse.dropWhile isSpace).reverse

/-! ## internal/validator -/

/-- IsOrderValid check if order data is valid; `none` (nil) if it is valid. -/
def IsOrderValid (o : Order) : Option Error :=
  if TrimSpace o.Status == "" then
    some (.errorf "status empty/not found")
  else if o.Qty == 0 then
    some (.errorf "qty empty/not found")
  else if o.TotalPrice.isZero then
    some (.errorf "total_price empty/not found")
  else if TrimSpace o.ProductName == "" then
    some (.errorf "product_name empty/not found")
  else if o.ProductPrice.isZero then
    some (.errorf "product_price empty/not found")
  else if o.ProductWeight.isZero then
    some (.errorf "product_weight empty/not found")
  else
    none

/-! ## Query filters of the form `bson.M{key: value, ...}` -/

/-- A BSON number by its numeric value, the way the server compares numbers of
different BSON types: not-a-number, an infinity, or the finite value `mant * 2 ^ exp`. -/
inductive Num where
  | nan
  | inf (neg : Bool)
  | fin (mant : Int) (exp : Int)
  deriving DecidableEq, Repr

/-- Numeric equality of BSON numbers: NaN equals NaN, an infinity equals the infinity
of the same sign, finite numbers are equal when their values are (so `+0` equals `-0`). -/
def Num.eq : Num → Num → Bool
  | .nan, .nan => true
  | .inf a, .inf b => a == b
  | .fin m e, .fin m' e' =>
    let lo := min e e'
    m * 2 ^ (e - lo).toNat == m' * 2 ^ (e' - lo).toNat
  | _, _ => false

/-- The numeric value of a binary64 bit pattern: sign bit 63, exponent bits 62-52,
fraction bits 51-0. -/
def Float64.toNum (x : Float64) : Num :=
  let neg : Bool := x.val / 2 ^ 63 == 1
  let e : Nat := x.val / 2 ^ 52 % 2 ^ 11
  let m : Nat := x.val % 2 ^ 52
  if e = 2047 then (if m = 0 then .inf neg else .nan)
  else
    let mant : Nat := if e = 0 then m else 2 ^ 52 + m
    let exp : Nat := if e = 0 then 1 else e
    .fin (if neg then -(mant : Int) else (mant : Int)) ((exp : Int) - 1075)

/-- The numeric value of a binary32 bit pattern: sign bit 31, exponent bits 30-23,
fraction bits 22-0. -/
def Float32.toNum (x : Float32) : Num :=
  let neg : Bool := x.val / 2 ^ 31 == 1
  let e : Nat := x.val / 2 ^ 23 % 2 ^ 8
  let m : Nat := x.val % 2 ^ 23
  if e = 255 then (if m = 0 then .inf neg else .nan)
  else
    let mant : Nat := if e = 0 then m else 2 ^ 23 + m
    let exp : Nat := if e = 0 then 1 else e
    .fin (if neg then -(mant : Int) else (mant : Int)) ((exp : Int) - 150)

/-- The BSON value of a field of a stored order document. -/
inductive Stored where
  | objectID (id : ObjectID)
  | string (s : String)
  | num (n : Num)
  | array (l : List String)
  | null
  deriving DecidableEq, Repr

/-- The field of a stored order document under a key (the `bson` tags of `Order`);
`none` when the document has no such field.  A nil slice is stored as null. -/
def Order.field (d : Order) (key : String) : Option Stored :=
  if key = "_id" then some (.objectID d.ID)
  else if key = "order_number" then some (.string d.OrderNumber)
  else if key = "status" then some (.string d.Status)
  else if key = "qty" then some (.num (.fin d.Qty 0))
  else if key = "total_price" then some (.num d.TotalPrice.toNum)
  else if key = "buyer_id" then some (.num (.fin d.BuyerID 0))
  else if key = "buyer_full_name" then some (.string d.BuyerFullName)
  else if key = "buyer_address" then some (.string d.BuyerAddress)
  else if key = "product_id" then some (.num (.fin d.ProductID 0))
  else if key = "product_sku" then some (.string d.ProductSKU)
  else if key = "product_name" then some (.string d.ProductName)
  else if key = "product_price" then some (.num d.ProductPrice.toNum)
  else if key = "product_weight" then some (.num d.ProductWeight.toNum)
  else if key = "product_description" then some (.string d.ProductDescription)
  else if key = "product_stock" then some (.num (.fin d.ProductStock 0))
  else if key = "product_user_id" then some (.num (.fin d.ProductUserID 0))
  else if key = "product_user_full_name" then some (.string d.ProductUserFullName)
  else if key = "product_images_path" then
    some (match d.ProductImagesPath with | some l => .array l | none => .null)
  else none

/-- The equality predicate `{key: v}` of a query on a stored value: strings are equal
as strings, numbers by numeric value whatever their BSON types, an array of strings
matches the same array, and a string matches an array that has it as an element.
Values of different kinds never match. -/
def Stored.eqValue : Stored → BValue → Bool
  | .string s, .string t => s == t
  | .num n, .int i => n.eq (.fin i 0)
  | .num n, .float64 x => n.eq x.toNum
  | .num n, .float32 x => n.eq x.toNum
  | .array l, .strings t => l == t
  | .array l, .string t => l.contains t
  | _, _ => false

/-- The query filter that a `bson.M` of plain values denotes: a document is selected
when, for every key bound in the map, it has the field and the field equals the bound
value (the conjunction of the equality predicates; the empty map selects every
document). -/
def M.matches (m : M) : Filter :=
  fun d => (M.keys m).all (fun key =>
    match m.lookup key, d.field key with
    | some v, some x => x.eqValue v
    | some _, none => false
    | none, _ => true)

/-! ## internal/model: GetOrders -/

/-- Driver call `oc.Find(ctx, filter)` together with the reading of its cursor by
`cur.Next` and `cur.Decode`: the selected documents, in natural order.  A failure is
a failure of the `Find` call; one that strikes while the cursor is read is not part of
the model. -/
def Find (oc : Collection) (filter : Filter) (fault : Option String) :
    Except Error (List Order) :=
  match fault with
  | some msg => .error (.driver msg)
  | none => .ok (oc.filter filter)

/-- GetOrders get order documents by some key in orders collection. -/
def GetOrders (oc : Collection) (filter : Filter) (fault : Option String) :
    List Order × Option Error :=
  match Find oc filter fault with
  | .error err => ([], some err)
  | .ok cur => (cur.foldl (fun orders o => orders ++ [o]) [], none)

/-! ## Go standard library: strconv.Atoi -/

/-- Go `strconv.Atoi` on a 64-bit platform: an optional sign `+` or `-`, then one or
more decimal digits and nothing else, with a value in the range of `int`; `none`
stands for the error result (syntax or range). -/
def Atoi (s : String) : Option Int :=
  let (neg, digits) : Bool × List Char :=
    match s.toList with
    | '-' :: cs => (true, cs)
    | '+' :: cs => (false, cs)
    | cs => (false, cs)
  if digits.isEmpty || !digits.all Char.isDigit then none
  else
    let n : Nat := digits.foldl (fun n ch => n * 10 + (ch.toNat - '0'.toNat)) 0
    let i : Int := if neg then -(n : Int) else (n : Int)
    if -(2 ^ 63) ≤ i ∧ i < 2 ^ 63 then some i else none

/-! ## internal/middleware and api: the request handlers -/

/-- User containing user data after authorization (`middleware.User`). -/
structure User where
  ID : Int
  Email : String
  Password : String
  FullName : String
  Address : String
  PhoneNumber : String
  Role : String
  deriving DecidableEq, Repr

/-- The Go value a handler hands to `c.JSON` as the body of the response. -/
inductive Body where
  /-- the map `map[string]string{"message": msg}` -/
  | message (msg : String)
  /-- a plain string -/
  | text (s : String)
  /-- one order -/
  | order (o : Order)
  /-- a slice of orders -/
  | orders (os : List Order)
  deriving DecidableEq, Repr

/-- The response written by `c.JSON(status, body)`. -/
structure Response where
  status : Nat
  body : Body
  deriving DecidableEq, Repr

/-- The message of a Go error, what its method `Error()` returns. -/
def Error.message : Error → String
  | .ErrNoDocuments => "mongo: no documents in result"
  | .driver msg => msg
  | .errorf msg => msg

/-- The query parameters of a request (`url.Values`), as the list of the name and
value pairs in the order they appear in the URL. -/
abbrev Query := List (String × String)

/-- Echo's `c.QueryParam(name)`: the first value given for the name, the empty string
when the name does not occur. -/
def QueryParam (q : Query) (name : String) : String := (q.lookup name).getD ""

/-- The filter that `GetOrdersHandler` builds from the query parameters ("get filter"). -/
def GetOrdersHandler.filter (q : Query) : M :=
  let filter : M := []
  let filter :=
    match Atoi (QueryParam q "buyer_id") with
    | some buyerID => filter.set "buyer_id" (.int buyerID)
    | none => filter
  let filter :=
    if QueryParam q "status" != "" then filter.set "status" (.string (QueryParam q "status"))
    else filter
  let filter :=
    match Atoi (QueryParam q "product_user_id") with
    | some productUserID => filter.set "product_user_id" (.int productUserID)
    | none => filter
  filter

/-- GetOrdersHandler route handler for get orders (Method: GET, User: all).  `user` is
the context value `c.Get("user")`, `none` when it is not a `middleware.User`. -/
def GetOrdersHandler (user : Option User) (q : Query) (oc : Collection)
    (fault : Option String) : Response :=
  match user with
  | none => { status := 500, body := .message "user data invalid" }
  | some _ =>
    match GetOrders oc (M.matches (GetOrdersHandler.filter q)) fault with
    | (_, some err) =>
      { status := 500
        body := .message ("There's an error when getting the orders data => " ++ err.message) }
    | (orders, none) => { status := 200, body := .orders orders }

/-- AddOrderHandler route handler for add order (Method: POST, User: buyer).  `user` is
the context value `c.Get("user")`, `none` when it is not a `middleware.User`; `bound`
is the outcome of `c.Bind(&o)`.  Returns the response and the collection after the
call; `none` when the loop of `InsertOrder` has not ended within `fuel` iterations. -/
def AddOrderHandler (user : Option User) (bound : Except Error Order) (oc : Collection)
    (env : InsertEnv) (fuel : Nat) : Option (Response × Collection) :=
  match user with
  | none => some ({ status := 500, body := .message "user data invalid" }, oc)
  | some u =>
    if u.Role != "buyer" then
      some ({ status := 403
              body := .message "user doesn't have authority to access this API" }, oc)
    else
      match bound with
      | .error err =>
        some ({ status := 400
                body := .message ("Order data not completed/invalid => " ++ err.message) },
              oc)
      | .ok o =>
        let o := { o with BuyerID := u.ID }
        match IsOrderValid o with
        | some err =>
          some ({ status := 400
                  body := .message ("Order data not completed/invalid => " ++ err.message) },
                oc)
        | none =>
          match InsertOrder oc env fuel o with
          | none => none
          | some ((_, some err), oc') =>
            some ({ status := 500
                    body := .message
                      ("There's an error when inserting order data => " ++ err.message) },
                  oc')
          | some ((o, none), oc') => some ({ status := 201, body := .order o }, oc')

/-- UpdateOrderHandler route handler for update order (Method: PUT, User: all).
Returns the response and the collection after the call. -/
def UpdateOrderHandler (user : Option User) (bound : Except Error Order) (q : Query)
    (oc : Collection) (fault : Option String) : Response × Collection :=
  match user with
  | none => ({ status := 500, body := .message "user data invalid" }, oc)
  | some _ =>
    match bound with
    | .error err =>
      ({ status := 400
         body := .message ("Order data not completed/invalid => " ++ err.message) }, oc)
    | .ok o =>
      let filter : M := []
      if QueryParam q "order_number" == "" then
        ({ status := 400, body := .message "order_number empty/not found" }, oc)
      else
        let filter := filter.set "order_number" (.string (QueryParam q "order_number"))
        match UpdateOrder oc (M.matches filter) o fault with
        | (some err, oc') =>
          ({ status := 500
             body := .message
               ("There's an error when updating order data => " ++ err.message) }, oc')
        | (none, oc') => ({ status := 200, body := .message "Update order success!" }, oc')

/-- DeleteOrderHandler route handler for delete order (Method: DELETE, User: all).
Returns the response and the collection after the call. -/
def DeleteOrderHandler (user : Option User) (q : Query) (oc : Collection)
    (fault : Option String) : Response × Collection :=
  match user with
  | none => ({ status := 500, body := .message "user data invalid" }, oc)
  | some _ =>
    let filter : M := []
    if QueryParam q "order_number" == "" then
      ({ status := 400, body := .message "order_number empty/not found" }, oc)
    else
      let filter := filter.set "order_number" (.string (QueryParam q "order_number"))
      match DeleteOrder oc (M.matches filter) fault with
      | (some err, oc') =>
        ({ status := 500
           body := .message
             ("There's an error when deleting order data => " ++ err.message) }, oc')
      | (none, oc') => ({ status := 200, body := .message "Delete order success!" }, oc')

/-! ## Go standard library: strings.Split -/

/-- The pieces of `s` between the occurrences of `sep`, found from left to right
without overlap.  `cur` holds, reversed, the characters of the piece being read;
`skip` is the number of characters of a separator just found that are still to be
passed over. -/
def Split.go (sep : List Char) : List Char → List Char → Nat → List (List Char)
  | [], cur, _ => [cur.reverse]
  | _ :: cs, cur, skip + 1 => Split.go sep cs cur skip
  | c :: cs, cur, 0 =>
    if sep.isPrefixOf (c :: cs) then cur.reverse :: Split.go sep cs [] (sep.length - 1)
    else Split.go sep cs (c :: cur) 0

/-- Go `strings.Split(s, sep)` for a non-empty separator: `s` cut at every occurrence
of `sep`; one piece more than there are occurrences. -/
def Split (s sep : String) : List String :=
  (Split.go sep.toList s.toList [] 0).map String.mk

/-! ## internal/middleware -/

/-- The request header (`http.Header`): canonical field names with their first value. -/
abbrev Header := List (String × String)

/-- Go `header.Get(key)`: the first value of the field, the empty string when the
field is absent. -/
def Header.Get (header : Header) (key : String) : String := (header.lookup key).getD ""

/-- GetTokenFromHeader getting token (bearer) from request header. -/
def GetTokenFromHeader (header : Header) : String :=
  let rawToken := header.Get "Authorization"
  if rawToken == "" then ""
  else
    let splitToken := Split rawToken "Bearer "
    if splitToken.length ≤ 1 then ""
    else
      let token := splitToken.getD 1 ""
      token

/-- What the account service answers to the authorization request made by
`http.Post`. -/
inductive AuthOutcome where
  /-- the request itself failed -/
  | postError (msg : String)
  /-- a response with the given status code whose body decodes to a user or fails to
  decode -/
  | response (statusCode : Nat) (decoded : Except String User)

/-- AuthorizationMiddleware authorize each API route by checking JWT Token.  `.error`
is the response with which the middleware ends the request itself; `.ok user` means
that it stored `user` in the context and called the next handler.  Writing the token
into the in-memory form buffer does not fail. -/
def AuthorizationMiddleware (header : Header) (auth : AuthOutcome) : Except Response User :=
  let token := GetTokenFromHeader header
  if token == "" then
    .error { status := 403, body := .message "Token authorization empty/not found" }
  else
    match auth with
    | .postError msg => .error { status := 500, body := .message msg }
    | .response statusCode decoded =>
      if statusCode != 200 then
        .error { status := 403, body := .text "Token authorization invalid" }
      else
        match decoded with
        | .error msg => .error { status := 500, body := .message msg }
        | .ok user => .ok user

/-! ## Specification-side definitions -/

/-- The mandatory fields of an order in the order the specification fixes, each with
the test "absent": blank after trimming for the strings, zero for the numbers. -/
def mandatoryFields (o : Order) : List (String × Bool) :=
  [("status", TrimSpace o.Status == ""),
   ("qty", o.Qty == 0),
   ("total_price", o.TotalPrice.isZero),
   ("product_name", TrimSpace o.ProductName == ""),
   ("product_price", o.ProductPrice.isZero),
   ("product_weight", o.ProductWeight.isZero)]

/-- The first mandatory field that is absent, if there is one. -/
def firstMissingField (o : Order) : Option String :=
  ((mandatoryFields o).find? (fun f => f.2)).map (fun f => f.1)

/-- The error that cites a missing field. -/
def missingField (field : String) : Error := .errorf (field ++ " empty/not found")

/-- The `k`-th candidate order number that a call of `InsertOrder` draws. -/
def candidate (env : InsertEnv) (k : Nat) : String := GetRandomOrderNumber (env.rand k)

/-- The order numbers of the stored records. -/
def orderNumbers (oc : Collection) : List String := oc.map (fun d => d.OrderNumber)

/-- Successive calls of `InsertOrder`, each with its own environment, fuel and input
order, every call on the store the previous one left; the results in call order. -/
def insertMany (oc : Collection) :
    List (InsertEnv × Nat × Order) → Option (List (Order × Option Error) × Collection)
  | [] => some ([], oc)
  | (env, fuel, o) :: rest =>
    match InsertOrder oc env fuel o with
    | none => none
    | some (res, oc') =>
      match insertMany oc' rest with
      | none => none
      | some (results, oc'') => some (res :: results, oc'')

/-- The order numbers of the insertions that succeeded (returned no error). -/
def insertedNumbers (results : List (Order × Option Error)) : List String :=
  (results.filter (fun res => res.2.isNone)).map (fun res => res.1.OrderNumber)

/-- What the specification says `Update` does to the store: the merge set applied to
every record the filter selects. -/
def updateAll (filter : Filter) (set : M) (oc : Collection) : Collection :=
  oc.map (fun d => if filter d then applySet d set else d)

/-- The filter with the single equality predicate `order_number = v`. -/
def orderNumberFilter (v : String) : M := [("order_number", .string v)]

/-! ## Example inputs -/

/-- An order with a status and nothing else: its `Qty` is zero and so are all the
fields checked after it. -/
def orderStatusOnly : Order := { Order.zero with Status := "in-cart" }

/-- A stored order used in the examples. -/
def orderA : Order :=
  { Order.zero with
    ID := 1, OrderNumber := "aaaaaaaaaaaaaaa", Status := "in-cart", Qty := 2,
    BuyerID := 1, ProductName := "product name", ProductStock := 100 }

/-- A second stored order used in the examples. -/
def orderB : Order :=
  { Order.zero with
    ID := 2, OrderNumber := "bbbbbbbbbbbbbbb", Status := "done", Qty := 5,
    BuyerID := 1, ProductName := "other product", ProductStock := 7 }

/-- An update order that names a new status and nothing else. -/
def updateStatusX : Order := { Order.zero with Status := "x" }

/-- An environment without failures whose first candidate is `000000000000000` and
whose later candidates are `111111111111111`; the driver hands out the identifier 5. -/
def envExample : InsertEnv :=
  { rand := fun k _ => if k = 0 then 0 else 1
    findFault := fun _ => none
    insertFault := none
    newID := 5 }

/-- A store of one order whose number is the first candidate of `envExample`. -/
def storeExample : Collection := [{ orderA with OrderNumber := "000000000000000" }]

/-- A new order as a client submits it: no identifier, no order number. -/
def orderNew : Order :=
  { Order.zero with
    Status := "in-cart", Qty := 3, TotalPrice := 7, BuyerID := 4,
    ProductName := "new product", ProductPrice := 9, ProductWeight := 11,
    ProductImagesPath := some ["product 1.1.jpg", "product 1.2.jpg"] }

/-- The record that `InsertOrder` stores for `orderNew` in `storeExample` under
`envExample`. -/
def orderNewStored : Order := { orderNew with ID := 5, OrderNumber := "111111111111111" }

/-- The order `orderNew` with an identifier chosen by the caller. -/
def orderNewWithID : Order := { orderNew with ID := 7 }

/-- The filter `bson.M{"buyer_id": 1}`; it selects both `orderA` and `orderB`. -/
def filterBuyerOne : M := [("buyer_id", .int 1)]

/-- An environment in which the first existence check fails and every later driver
call goes through; the candidates are `000000000000000`, then `111111111111111`. -/
def envFindFailsOnce : InsertEnv :=
  { rand := fun k _ => if k = 0 then 0 else 1
    findFault := fun k => if k = 0 then some "connection reset by peer" else none
    insertFault := none
    newID := 5 }

/-- An environment in which every existence check fails. -/
def envFindFailsAlways : InsertEnv :=
  { rand := fun k _ => k
    findFault := fun _ => some "server selection timeout"
    insertFault := none
    newID := 5 }

/-- A user with the role `buyer`. -/
def userBuyer : User :=
  { ID := 9, Email := "buyer@example.com", Password := "", FullName := "George Marcus",
    Address := "Buyer Street", PhoneNumber := "", Role := "buyer" }

/-- A user with the role `seller`. -/
def userSeller : User := { userBuyer with ID := 10, Role := "seller" }

/-- An order that is complete but for its quantity, which is negative. -/
def orderNegativeQty : Order := { orderNew with Qty := -1 }

/-- An update order that carries the empty, non-nil list of image paths and nothing
else. -/
def updateNoImages : Order := { Order.zero with ProductImagesPath := some [] }

/-- A third stored order, in the cart like `orderA`. -/
def orderC : Order := { orderA with ID := 3, OrderNumber := "ccccccccccccccc" }

/-- The filter `bson.M{"status": "in-cart"}`. -/
def filterInCart : M := [("status", .string "in-cart")]

/-- An update order that sets the status `done` and nothing else. -/
def updateStatusDone : Order := { Order.zero with Status := "done" }

/-- An update order whose status is one space and which names nothing else. -/
def updateStatusBlank : Order := { Order.zero with Status := " " }

/-! ## Lemmas: the merge set of UpdateOrder -/

/-- Looking a key up after a guarded assignment `if c then m[key] = v`. -/
theorem lookup_ite_set (c : Prop) [Decidable c] (m : M) (k k' : String) (v : BValue) :
    List.lookup k (if c then M.set m k' v else m) =
      if c ∧ k = k' then some v else List.lookup k m := by
  by_cases hc : c
  · by_cases hk : k = k'
    · simp [hc, hk, M.set, List.lookup]
    · have : (k == k') = false := by simpa using hk
      simp [hc, hk, M.set, List.lookup, this]
  · simp [hc]

/-- Looking a key up after the assignment `m[key] = v`. -/
theorem lookup_set (m : M) (k k' : String) (v : BValue) :
    List.lookup k (M.set m k' v) = if k = k' then some v else List.lookup k m := by
  simpa using lookup_ite_set True m k k' v

/-- The binding of every key in the merge set of `UpdateOrder`. -/
theorem UpdateOrder.value_lookup (p : Order) (k : String) :
    (UpdateOrder.value p).lookup k =
      if k = "product_images_path" ∧ p.ProductImagesPath.isSome then
        p.ProductImagesPath.map BValue.strings
      else if p.ProductUserFullName ≠ "" ∧ k = "product_user_full_name" then
        some (.string p.ProductUserFullName)
      else if p.ProductUserID ≠ 0 ∧ k = "product_user_id" then some (.int p.ProductUserID)
      else if p.ProductStock ≠ 0 ∧ k = "product_stock" then some (.int p.ProductStock)
      else if p.ProductDescription ≠ "" ∧ k = "product_description" then
        some (.string p.ProductDescription)
      else if p.ProductWeight.isZero = false ∧ k = "product_weight" then
        some (.float32 p.ProductWeight)
      else if p.ProductPrice.isZero = false ∧ k = "product_price" then
        some (.float64 p.ProductPrice)
      else if p.ProductName ≠ "" ∧ k = "product_name" then some (.string p.ProductName)
      else if p.ProductSKU ≠ "" ∧ k = "product_sku" then some (.string p.ProductSKU)
      else if p.ProductID ≠ 0 ∧ k = "product_id" then some (.int p.ProductID)
      else if p.BuyerAddress ≠ "" ∧ k = "buyer_address" then some (.string p.BuyerAddress)
      else if p.BuyerFullName ≠ "" ∧ k = "buyer_full_name" then
        some (.string p.BuyerFullName)
      else if p.BuyerID ≠ 0 ∧ k = "buyer_id" then some (.int p.BuyerID)
      else if p.TotalPrice.isZero = false ∧ k = "total_price" then
        some (.float64 p.TotalPrice)
      else if p.Qty ≠ 0 ∧ k = "qty" then some (.int p.Qty)
      else if p.Status ≠ "" ∧ k = "status" then some (.string p.Status)
      else none := by
  unfold UpdateOrder.value
  lift_lets
  intro v0 v1 v2 v3 v4 v5 v6 v7 v8 v9 v10 v11 v12 v13 v14 v15 v16
  have h16 : List.lookup k v16 =
      if k = "product_images_path" ∧ p.ProductImagesPath.isSome then
        p.ProductImagesPath.map BValue.strings
      else List.lookup k v15 := by
    simp only [v16]
    cases p.ProductImagesPath with
    | none => simp
    | some l => simp [lookup_set]
  rw [h16]
  simp only [v15, v14, v13, v12, v11, v10, v9, v8, v7, v6, v5, v4, v3, v2, v1, v0,
    lookup_ite_set]
  simp

/-- A key is bound in a `bson.M` exactly when looking it up finds a value. -/
theorem mem_keys_iff (m : M) (k : String) : k ∈ M.keys m ↔ (List.lookup k m).isSome = true := by
  induction m with
  | nil => simp [M.keys]
  | cons kv m ih =>
    obtain ⟨k', v⟩ := kv
    by_cases hk : k = k'
    · simp [M.keys, List.lookup, hk]
    · have hb : (k == k') = false := by simpa using hk
      have ih' : k ∈ List.map Prod.fst m ↔ (List.lookup k m).isSome = true := ih
      simp [M.keys, List.lookup, hk, hb, ih']

/-- The field `Status` after the merge set of `p` is applied to `r`. -/
theorem applySet_value_Status (r p : Order) :
    (applySet r (UpdateOrder.value p)).Status =
      (if p.Status ≠ "" then p.Status else r.Status) := by
  by_cases h : p.Status = "" <;> simp [applySet, UpdateOrder.value_lookup, h]

/-- The field `Qty` after the merge set of `p` is applied to `r`. -/
theorem applySet_value_Qty (r p : Order) :
    (applySet r (UpdateOrder.value p)).Qty =
      (if p.Qty ≠ 0 then p.Qty else r.Qty) := by
  by_cases h : p.Qty = 0 <;> simp [applySet, UpdateOrder.value_lookup, h]

/-- The field `TotalPrice` after the merge set of `p` is applied to `r`. -/
theorem applySet_value_TotalPrice (r p : Order) :
    (applySet r (UpdateOrder.value p)).TotalPrice =
      (if p.TotalPrice.isZero then r.TotalPrice else p.TotalPrice) := by
  by_cases h : p.TotalPrice.isZero = true <;> simp [applySet, UpdateOrder.value_lookup, h]

/-- The field `BuyerID` after the merge set of `p` is applied to `r`. -/
theorem applySet_value_BuyerID (r p : Order) :
    (applySet r (UpdateOrder.value p)).BuyerID =
      (if p.BuyerID ≠ 0 then p.BuyerID else r.BuyerID) := by
  by_cases h : p.BuyerID = 0 <;> simp [applySet, UpdateOrder.value_lookup, h]

/-- The field `BuyerFullName` after the merge set of `p` is applied to `r`. -/
theorem applySet_value_BuyerFullName (r p : Order) :
    (applySet r (UpdateOrder.value p)).BuyerFullName =
      (if p.BuyerFullName ≠ "" then p.BuyerFullName else r.BuyerFullName) := by
  by_cases h : p.BuyerFullName = "" <;> simp [applySet, UpdateOrder.value_lookup, h]

/-- The field `BuyerAddress` after the merge set of `p` is applied to `r`. -/
theorem applySet_value_BuyerAddress (r p : Order) :
    (applySet r (UpdateOrder.value p)).BuyerAddress =
      (if p.BuyerAddress ≠ "" then p.BuyerAddress else r.BuyerAddress) := by
  by_cases h : p.BuyerAddress = "" <;> simp [applySet, UpdateOrder.value_lookup, h]

/-- The field `ProductID` after the merge set of `p` is applied to `r`. -/
theorem applySet_value_ProductID (r p : Order) :
    (applySet r (UpdateOrder.value p)).ProductID =
      (if p.ProductID ≠ 0 then p.ProductID else r.ProductID) := by
  by_cases h : p.ProductID = 0 <;> simp [applySet, UpdateOrder.value_lookup, h]

/-- The field `ProductSKU` after the merge set of `p` is applied to `r`. -/
theorem applySet_value_ProductSKU (r p : Order) :
    (applySet r (UpdateOrder.value p)).ProductSKU =
      (if p.ProductSKU ≠ "" then p.ProductSKU else r.ProductSKU) := by
  by_cases h : p.ProductSKU = "" <;> simp [applySet, UpdateOrder.value_lookup, h]

/-- The field `ProductName` after the merge set of `p` is applied to `r`. -/
theorem applySet_value_ProductName (r p : Order) :
    (applySet r (UpdateOrder.value p)).ProductName =
      (if p.ProductName ≠ "" then p.ProductName else r.ProductName) := by
  by_cases h : p.ProductName = "" <;> simp [applySet, UpdateOrder.value_lookup, h]

/-- The field `ProductPrice` after the merge set of `p` is applied to `r`. -/
theorem applySet_value_ProductPrice (r p : Order) :
    (applySet r (UpdateOrder.value p)).ProductPrice =
      (if p.ProductPrice.isZero then r.ProductPrice else p.ProductPrice) := by
  by_cases h : p.ProductPrice.isZero = true <;> simp [applySet, UpdateOrder.value_lookup, h]

/-- The field `ProductWeight` after the merge set of `p` is applied to `r`. -/
theorem applySet_value_ProductWeight (r p : Order) :
    (applySet r (UpdateOrder.value p)).ProductWeight =
      (if p.ProductWeight.isZero then r.ProductWeight else p.ProductWeight) := by
  by_cases h : p.ProductWeight.isZero = true <;> simp [applySet, UpdateOrder.value_lookup, h]

/-- The field `ProductDescription` after the merge set of `p` is applied to `r`. -/
theorem applySet_value_ProductDescription (r p : Order) :
    (applySet r (UpdateOrder.value p)).ProductDescription =
      (if p.ProductDescription ≠ "" then p.ProductDescription else r.ProductDescription) := by
  by_cases h : p.ProductDescription = "" <;> simp [applySet, UpdateOrder.value_lookup, h]

/-- The field `ProductStock` after the merge set of `p` is applied to `r`. -/
theorem applySet_value_ProductStock (r p : Order) :
    (applySet r (UpdateOrder.value p)).ProductStock =
      (if p.ProductStock ≠ 0 then p.ProductStock else r.ProductStock) := by
  by_cases h : p.ProductStock = 0 <;> simp [applySet, UpdateOrder.value_lookup, h]

/-- The field `ProductUserID` after the merge set of `p` is applied to `r`. -/
theorem applySet_value_ProductUserID (r p : Order) :
    (applySet r (UpdateOrder.value p)).ProductUserID =
      (if p.ProductUserID ≠ 0 then p.ProductUserID else r.ProductUserID) := by
  by_cases h : p.ProductUserID = 0 <;> simp [applySet, UpdateOrder.value_lookup, h]

/-- The field `ProductUserFullName` after the merge set of `p` is applied to `r`. -/
theorem applySet_value_ProductUserFullName (r p : Order) :
    (applySet r (UpdateOrder.value p)).ProductUserFullName =
      (if p.ProductUserFullName ≠ "" then p.ProductUserFullName else r.ProductUserFullName) := by
  by_cases h : p.ProductUserFullName = "" <;> simp [applySet, UpdateOrder.value_lookup, h]

/-! ## Lemmas: the driver calls -/

/-- When no document before `r` is selected, `UpdateOne` changes `r`. -/
theorem updateFirst_append (filter : Filter) (set : M) (pre post : Collection) (r : Order)
    (hpre : ∀ d ∈ pre, filter d = false) (hr : filter r = true) :
    updateFirst filter set (pre ++ r :: post) = pre ++ applySet r set :: post := by
  induction pre with
  | nil => simp [updateFirst, hr]
  | cons d ds ih =>
    have hd : filter d = false := hpre d (List.mem_cons_self d ds)
    have hds : ∀ x ∈ ds, filter x = false := fun x hx => hpre x (List.mem_cons_of_mem d hx)
    simp [updateFirst, hd, ih hds]

/-- When no document is selected, `UpdateOne` changes nothing. -/
theorem updateFirst_of_no_match (filter : Filter) (set : M) (oc : Collection)
    (h : ∀ d ∈ oc, filter d = false) : updateFirst filter set oc = oc := by
  induction oc with
  | nil => rfl
  | cons d ds ih =>
    have hd : filter d = false := h d (List.mem_cons_self d ds)
    have hds : ∀ x ∈ ds, filter x = false := fun x hx => h x (List.mem_cons_of_mem d hx)
    simp [updateFirst, hd, ih hds]

/-- A projection of the documents that `$set` does not touch is the same before and
after `UpdateOne`. -/
theorem updateFirst_map {β : Type} (g : Order → β) (filter : Filter) (set : M)
    (hg : ∀ d, g (applySet d set) = g d) (oc : Collection) :
    (updateFirst filter set oc).map g = oc.map g := by
  induction oc with
  | nil => rfl
  | cons d ds ih =>
    by_cases hd : filter d = true
    · simp [updateFirst, hd, hg]
    · simp [updateFirst, hd, ih]

/-- No document is selected exactly when `any` is false. -/
theorem any_eq_false_of_no_match (filter : Filter) (oc : Collection)
    (h : ∀ d ∈ oc, filter d = false) : oc.any filter = false := by
  simpa using h

/-- No stored record is found by an order number exactly when no record has it. -/
theorem find_byOrderNumber_eq_none (oc : Collection) (n : String) :
    oc.find? (byOrderNumber n) = none ↔ n ∉ orderNumbers oc := by
  simp only [List.find?_eq_none, orderNumbers, List.mem_map, byOrderNumber]
  constructor
  · rintro h ⟨d, hd, rfl⟩
    exact h d hd (by simp)
  · intro h d hd hbeq
    exact h ⟨d, hd, by simpa using hbeq⟩

/-- `FindOne` by order number reports `mongo.ErrNoDocuments` exactly when the call goes
through and no stored record has the number. -/
theorem FindOne_eq_ErrNoDocuments (oc : Collection) (n : String) (fault : Option String) :
    FindOne oc (byOrderNumber n) fault = .error .ErrNoDocuments ↔
      fault = none ∧ n ∉ orderNumbers oc := by
  cases fault with
  | some msg => simp [FindOne]
  | none =>
    rw [← find_byOrderNumber_eq_none]
    cases h : oc.find? (byOrderNumber n) <;> simp [FindOne, h]

/-! ## Lemmas: InsertOrder -/

/-- One iteration of the loop of `InsertOrder`. -/
theorem loop_succ (oc : Collection) (env : InsertEnv) (fuel k : Nat) :
    InsertOrder.loop oc env (fuel + 1) k =
      if env.findFault k = none ∧ candidate env k ∉ orderNumbers oc then
        some (candidate env k)
      else InsertOrder.loop oc env fuel (k + 1) := by
  have hiff := FindOne_eq_ErrNoDocuments oc (candidate env k) (env.findFault k)
  by_cases hc : env.findFault k = none ∧ candidate env k ∉ orderNumbers oc
  · rw [if_pos hc]
    have h := hiff.2 hc
    simp only [candidate] at h
    simp only [InsertOrder.loop, h]
    rfl
  · rw [if_neg hc]
    have h : FindOne oc (byOrderNumber (candidate env k)) (env.findFault k) ≠
        .error .ErrNoDocuments := fun h => hc (hiff.1 h)
    simp only [candidate] at h
    cases hF : FindOne oc (byOrderNumber (GetRandomOrderNumber (env.rand k)))
        (env.findFault k) with
    | ok d => simp only [InsertOrder.loop, hF]
    | error e =>
      cases e with
      | ErrNoDocuments => exact absurd hF h
      | driver msg => simp only [InsertOrder.loop, hF]
      | errorf msg => simp only [InsertOrder.loop, hF]

/-- What the loop returns is a candidate that no stored record has. -/
theorem loop_sound (oc : Collection) (env : InsertEnv) (fuel : Nat) :
    ∀ k n, InsertOrder.loop oc env fuel k = some n → n ∉ orderNumbers oc := by
  induction fuel with
  | zero => intro k n h; simp [InsertOrder.loop] at h
  | succ fuel ih =>
    intro k n h
    rw [loop_succ] at h
    by_cases hc : env.findFault k = none ∧ candidate env k ∉ orderNumbers oc
    · rw [if_pos hc] at h
      cases h
      exact hc.2
    · rw [if_neg hc] at h
      exact ih (k + 1) n h

/-- Without failures of `FindOne`, the loop started at candidate `k` ends at the first
candidate from `k` on that no stored record has, given fuel for that many rounds. -/
theorem loop_complete (oc : Collection) (env : InsertEnv)
    (hfault : ∀ j, env.findFault j = none) (i : Nat) :
    ∀ k fuel, i < fuel → candidate env (k + i) ∉ orderNumbers oc →
      (∀ j, j < i → candidate env (k + j) ∈ orderNumbers oc) →
      InsertOrder.loop oc env fuel k = some (candidate env (k + i)) := by
  induction i with
  | zero =>
    intro k fuel hfuel habs _
    obtain ⟨fuel', rfl⟩ : ∃ f, fuel = f + 1 := ⟨fuel - 1, by omega⟩
    rw [loop_succ, if_pos ⟨hfault k, by simpa using habs⟩]
    simp
  | succ i ih =>
    intro k fuel hfuel habs hpres
    obtain ⟨fuel', rfl⟩ : ∃ f, fuel = f + 1 := ⟨fuel - 1, by omega⟩
    have h0 : candidate env k ∈ orderNumbers oc := by simpa using hpres 0 (by omega)
    rw [loop_succ, if_neg (fun hc => hc.2 h0)]
    have := ih (k + 1) fuel' (by omega) (by simpa [Nat.add_assoc, Nat.add_comm 1 i] using habs)
      (fun j hj => by
        have := hpres (j + 1) (by omega)
        simpa [Nat.add_assoc, Nat.add_comm 1 j] using this)
    simpa [Nat.add_assoc, Nat.add_comm 1 i] using this

/-- What a returning `InsertOrder` does: the order number it assigns is a candidate that
no stored record had; either the insert went through, and the returned order, which is
the input with the order number and the identifier of the new document, is appended to
the store, or the insert failed and the store is as before. -/
theorem InsertOrder_spec (oc : Collection) (env : InsertEnv) (fuel : Nat) (o o' : Order)
    (err : Option Error) (oc' : Collection)
    (h : InsertOrder oc env fuel o = some ((o', err), oc')) :
    o'.OrderNumber ∉ orderNumbers oc ∧
    o' = { o with ID := o'.ID, OrderNumber := o'.OrderNumber } ∧
    ((err = none ∧ oc' = oc ++ [o']) ∨ (err ≠ none ∧ oc' = oc)) := by
  unfold InsertOrder at h
  cases hl : InsertOrder.loop oc env fuel 0 with
  | none => simp [hl] at h
  | some n =>
    have hn := loop_sound oc env fuel 0 n hl
    simp only [hl] at h
    cases hf : env.insertFault with
    | some msg =>
      simp only [InsertOne, hf, Option.some.injEq, Prod.mk.injEq] at h
      obtain ⟨⟨rfl, rfl⟩, rfl⟩ := h
      exact ⟨hn, rfl, Or.inr ⟨by simp, rfl⟩⟩
    | none =>
      by_cases hdup :
          oc.any (fun d => d.ID == if o.ID = NilObjectID then env.newID else o.ID) = true
      · simp only [InsertOne, hf, hdup, if_true, Option.some.injEq, Prod.mk.injEq] at h
        obtain ⟨⟨rfl, rfl⟩, rfl⟩ := h
        exact ⟨hn, rfl, Or.inr ⟨by simp, rfl⟩⟩
      · simp only [InsertOne, hf, hdup, Option.some.injEq, Prod.mk.injEq] at h
        obtain ⟨⟨rfl, rfl⟩, rfl⟩ := h
        exact ⟨hn, rfl, Or.inl ⟨rfl, rfl⟩⟩

/-- The order numbers after successive insertions: those of the store before, then
those of the insertions that succeeded. -/
theorem insertMany_orderNumbers (reqs : List (InsertEnv × Nat × Order)) :
    ∀ (oc : Collection) (results : List (Order × Option Error)) (oc' : Collection),
      insertMany oc reqs = some (results, oc') →
      results.length = reqs.length ∧
      orderNumbers oc' = orderNumbers oc ++ insertedNumbers results ∧
      ((orderNumbers oc).Nodup → (orderNumbers oc').Nodup) := by
  induction reqs with
  | nil =>
    intro oc results oc' h
    simp only [insertMany, Option.some.injEq, Prod.mk.injEq] at h
    obtain ⟨rfl, rfl⟩ := h
    simp [insertedNumbers]
  | cons req rest ih =>
    intro oc results oc' h
    obtain ⟨env, fuel, o⟩ := req
    simp only [insertMany] at h
    cases h1 : InsertOrder oc env fuel o with
    | none => simp [h1] at h
    | some r1 =>
      obtain ⟨⟨o1, err1⟩, oc1⟩ := r1
      simp only [h1] at h
      cases h2 : insertMany oc1 rest with
      | none => simp [h2] at h
      | some r2 =>
        obtain ⟨rs, oc2⟩ := r2
        simp only [h2, Option.some.injEq, Prod.mk.injEq] at h
        obtain ⟨rfl, rfl⟩ := h
        obtain ⟨hlen, hnum, hnodup⟩ := ih oc1 rs oc2 h2
        obtain ⟨hfresh, -, hstep⟩ := InsertOrder_spec oc env fuel o o1 err1 oc1 h1
        rcases hstep with ⟨rfl, rfl⟩ | ⟨herr, rfl⟩
        · refine ⟨by simp [hlen], ?_, ?_⟩
          · rw [hnum]
            simp [orderNumbers, insertedNumbers]
          · intro hnd
            apply hnodup
            simp only [orderNumbers, List.map_append, List.map_cons, List.map_nil]
            rw [List.nodup_append]
            refine ⟨hnd, by simp, ?_⟩
            intro a ha hb
            simp only [List.mem_singleton] at hb
            subst hb
            exact hfresh ha
        · refine ⟨by simp [hlen], ?_, hnodup⟩
          rw [hnum]
          cases err1 with
          | none => exact absurd rfl herr
          | some e => simp [insertedNumbers]

/-! ## Theorems: internal/validator -/

/-- C1: `IsOrderValid o` returns no error if and only if `Status` and `ProductName` are
non-empty after trimming white space and `Qty`, `TotalPrice`, `ProductPrice` and
`ProductWeight` are all non-zero. -/
theorem IsOrderValid_eq_none_iff (o : Order) :
    IsOrderValid o = none ↔
      TrimSpace o.Status ≠ "" ∧ TrimSpace o.ProductName ≠ "" ∧ o.Qty ≠ 0 ∧
      o.TotalPrice.isZero = false ∧ o.ProductPrice.isZero = false ∧
      o.ProductWeight.isZero = false := by
  unfold IsOrderValid
  by_cases h1 : TrimSpace o.Status = ""
  · simp [h1]
  by_cases h2 : o.Qty = 0
  · simp [h1, h2]
  by_cases h3 : o.TotalPrice.isZero = true
  · simp [h1, h2, h3]
  by_cases h4 : TrimSpace o.ProductName = ""
  · simp [h1, h2, h3, h4]
  by_cases h5 : o.ProductPrice.isZero = true
  · simp [h1, h2, h3, h4, h5]
  by_cases h6 : o.ProductWeight.isZero = true
  · simp [h1, h2, h3, h4, h5, h6]
  simp [h1, h2, h3, h4, h5, h6]

/-- C2: a failing `IsOrderValid` reports exactly one field, the first absent one in
the order status, qty, total_price, product_name, product_price, product_weight, with
the message "<field> empty/not found"; in particular an order with a non-blank status
and `Qty = 0` fails with "qty empty/not found" whatever its other fields are. -/
theorem IsOrderValid_reports_first_missing (o : Order) :
    IsOrderValid o = (firstMissingField o).map missingField ∧
    (TrimSpace o.Status ≠ "" → o.Qty = 0 →
      IsOrderValid o = some (.errorf "qty empty/not found")) := by
  have e1 : missingField "status" = .errorf "status empty/not found" := by decide
  have e2 : missingField "qty" = .errorf "qty empty/not found" := by decide
  have e3 : missingField "total_price" = .errorf "total_price empty/not found" := by decide
  have e4 : missingField "product_name" = .errorf "product_name empty/not found" := by decide
  have e5 : missingField "product_price" = .errorf "product_price empty/not found" := by
    decide
  have e6 : missingField "product_weight" = .errorf "product_weight empty/not found" := by
    decide
  constructor
  · unfold IsOrderValid firstMissingField mandatoryFields
    by_cases h1 : TrimSpace o.Status = ""
    · simp [h1, e1]
    by_cases h2 : o.Qty = 0
    · simp [h1, h2, e2]
    by_cases h3 : o.TotalPrice.isZero = true
    · simp [h1, h2, h3, e3]
    by_cases h4 : TrimSpace o.ProductName = ""
    · simp [h1, h2, h3, h4, e4]
    by_cases h5 : o.ProductPrice.isZero = true
    · simp [h1, h2, h3, h4, h5, e5]
    by_cases h6 : o.ProductWeight.isZero = true
    · simp [h1, h2, h3, h4, h5, h6, e6]
    simp [h1, h2, h3, h4, h5, h6]
  · intro h1 h2
    unfold IsOrderValid
    simp [h1, h2]

/-- Witness of C2: the order with only a status fails with "qty empty/not found". -/
theorem IsOrderValid_reports_first_missing_witness :
    IsOrderValid orderStatusOnly = some (.errorf "qty empty/not found") :=
  (IsOrderValid_reports_first_missing orderStatusOnly).2 (by decide) (by decide)

/-! ## Theorems: UpdateOrder and DeleteOrder -/

/-- C3: when the filter selects the stored record `r` and no record before it (so in
particular when `r` is the one record it selects), `UpdateOrder` succeeds and each of
the fifteen scalar fields of the stored record then has the value of the update order
`p` when that value is non-empty (strings) or non-zero (numbers), and the previous
value of `r` otherwise; all other records are as before. -/
theorem UpdateOrder_merges (pre post : Collection) (r p : Order) (filter : Filter)
    (hr : filter r = true) (hpre : ∀ d ∈ pre, filter d = false) :
    ∃ r', UpdateOrder (pre ++ r :: post) filter p none = (none, pre ++ r' :: post) ∧
      r'.Status = (if p.Status ≠ "" then p.Status else r.Status) ∧
      r'.Qty = (if p.Qty ≠ 0 then p.Qty else r.Qty) ∧
      r'.TotalPrice = (if p.TotalPrice.isZero then r.TotalPrice else p.TotalPrice) ∧
      r'.BuyerID = (if p.BuyerID ≠ 0 then p.BuyerID else r.BuyerID) ∧
      r'.BuyerFullName = (if p.BuyerFullName ≠ "" then p.BuyerFullName else r.BuyerFullName) ∧
      r'.BuyerAddress = (if p.BuyerAddress ≠ "" then p.BuyerAddress else r.BuyerAddress) ∧
      r'.ProductID = (if p.ProductID ≠ 0 then p.ProductID else r.ProductID) ∧
      r'.ProductSKU = (if p.ProductSKU ≠ "" then p.ProductSKU else r.ProductSKU) ∧
      r'.ProductName = (if p.ProductName ≠ "" then p.ProductName else r.ProductName) ∧
      r'.ProductPrice = (if p.ProductPrice.isZero then r.ProductPrice else p.ProductPrice) ∧
      r'.ProductWeight =
        (if p.ProductWeight.isZero then r.ProductWeight else p.ProductWeight) ∧
      r'.ProductDescription =
        (if p.ProductDescription ≠ "" then p.ProductDescription else r.ProductDescription) ∧
      r'.ProductStock = (if p.ProductStock ≠ 0 then p.ProductStock else r.ProductStock) ∧
      r'.ProductUserID = (if p.ProductUserID ≠ 0 then p.ProductUserID else r.ProductUserID) ∧
      r'.ProductUserFullName =
        (if p.ProductUserFullName ≠ "" then p.ProductUserFullName
         else r.ProductUserFullName) := by
  have hany : (pre ++ r :: post).any filter = true := by simp [hr]
  refine ⟨applySet r (UpdateOrder.value p), ?_, applySet_value_Status r p,
    applySet_value_Qty r p, applySet_value_TotalPrice r p, applySet_value_BuyerID r p,
    applySet_value_BuyerFullName r p, applySet_value_BuyerAddress r p,
    applySet_value_ProductID r p, applySet_value_ProductSKU r p,
    applySet_value_ProductName r p, applySet_value_ProductPrice r p,
    applySet_value_ProductWeight r p, applySet_value_ProductDescription r p,
    applySet_value_ProductStock r p, applySet_value_ProductUserID r p,
    applySet_value_ProductUserFullName r p⟩
  simp only [UpdateOrder, UpdateOne, hany, updateFirst_append filter _ pre post r hpre hr]
  simp

/-- Witness of C3: updating `orderB` by its order number in a store of two orders. -/
theorem UpdateOrder_merges_witness :
    (UpdateOrder ([orderA] ++ orderB :: []) (byOrderNumber "bbbbbbbbbbbbbbb")
        updateStatusX none).1 = none ∧
    (UpdateOrder ([orderA] ++ orderB :: []) (byOrderNumber "bbbbbbbbbbbbbbb")
        updateStatusX none).2.map (fun d => (d.Status, d.Qty)) =
      [("in-cart", 2), ("x", 5)] := by
  obtain ⟨r', h, hs, hq, _⟩ :=
    UpdateOrder_merges [orderA] [] orderB updateStatusX (byOrderNumber "bbbbbbbbbbbbbbb")
      (by decide) (by decide)
  rw [h]
  refine ⟨rfl, ?_⟩
  have hs' : r'.Status = "x" := by rw [hs]; decide
  have hq' : r'.Qty = 5 := by rw [hq]; decide
  simp [hs', hq', orderA, Order.zero]

/-- C4: with a filter that selects no stored record `UpdateOrder` fails with the error
"no data updated" and leaves the store as it was (the store is left as it was also
when the driver call fails); with a filter that selects at least one record, and no
driver failure, it returns no error. -/
theorem UpdateOrder_no_data_updated (oc : Collection) (filter : Filter) (p : Order) :
    ((∀ d ∈ oc, filter d = false) →
      UpdateOrder oc filter p none = (some (.errorf "no data updated"), oc) ∧
      ∀ fault, (UpdateOrder oc filter p fault).2 = oc) ∧
    ((∃ d ∈ oc, filter d = true) → (UpdateOrder oc filter p none).1 = none) := by
  constructor
  · intro h
    have hany : oc.any filter = false := any_eq_false_of_no_match filter oc h
    have hupd := updateFirst_of_no_match filter (UpdateOrder.value p) oc h
    constructor
    · simp [UpdateOrder, UpdateOne, hany, hupd]
    · intro fault
      cases fault with
      | none => simp [UpdateOrder, UpdateOne, hany, hupd]
      | some msg => simp [UpdateOrder, UpdateOne]
  · intro h
    have hany : oc.any filter = true := by simpa using h
    simp [UpdateOrder, UpdateOne, hany]

/-- Witness of C4: an unknown order number on a store of two orders, and a known one. -/
theorem UpdateOrder_no_data_updated_witness :
    UpdateOrder [orderA, orderB] (byOrderNumber "this order number not exist in database")
        Order.zero none = (some (.errorf "no data updated"), [orderA, orderB]) ∧
    (UpdateOrder [orderA, orderB] (byOrderNumber "aaaaaaaaaaaaaaa") Order.zero none).1 = none :=
  ⟨((UpdateOrder_no_data_updated [orderA, orderB]
      (byOrderNumber "this order number not exist in database") Order.zero).1
      (by decide)).1,
   (UpdateOrder_no_data_updated [orderA, orderB] (byOrderNumber "aaaaaaaaaaaaaaa")
      Order.zero).2 (by decide)⟩

/-- C5: with a filter that selects no stored record `DeleteOrder` returns no error and
leaves the store as it was. -/
theorem DeleteOrder_no_match (oc : Collection) (filter : Filter)
    (h : ∀ d ∈ oc, filter d = false) : DeleteOrder oc filter none = (none, oc) := by
  have herase : oc.eraseP filter = oc := by
    apply List.eraseP_of_forall_not
    intro d hd
    simp [h d hd]
  simp [DeleteOrder, DeleteOne, herase]

/-- Witness of C5: deleting an unknown order number from a store of two orders. -/
theorem DeleteOrder_no_match_witness :
    DeleteOrder [orderA, orderB] (byOrderNumber "zzzzzzzzzzzzzzz") none =
      (none, [orderA, orderB]) :=
  DeleteOrder_no_match [orderA, orderB] (byOrderNumber "zzzzzzzzzzzzzzz") (by decide)

/-- C6: whatever the store, the filter, the update order (its `ID` and `OrderNumber`
included) and the outcome of the driver call, `UpdateOrder` leaves the `_id` and the
`order_number` of every stored record as they were, and the merge set binds neither
the key `_id` nor the key `order_number`. -/
theorem UpdateOrder_keeps_identity (oc : Collection) (filter : Filter) (p : Order)
    (fault : Option String) :
    (UpdateOrder oc filter p fault).2.map (fun d => (d.ID, d.OrderNumber)) =
      oc.map (fun d => (d.ID, d.OrderNumber)) ∧
    "_id" ∉ M.keys (UpdateOrder.value p) ∧
    "order_number" ∉ M.keys (UpdateOrder.value p) := by
  have hno : List.lookup "order_number" (UpdateOrder.value p) = none := by
    simp [UpdateOrder.value_lookup]
  have hid : List.lookup "_id" (UpdateOrder.value p) = none := by
    simp [UpdateOrder.value_lookup]
  refine ⟨?_, ?_, ?_⟩
  · have hupd := updateFirst_map (fun d => (d.ID, d.OrderNumber)) filter
      (UpdateOrder.value p) (by intro d; simp [applySet, hno]) oc
    cases fault with
    | some msg => simp [UpdateOrder, UpdateOne]
    | none =>
      by_cases hany : oc.any filter = true
      · simpa [UpdateOrder, UpdateOne, hany] using hupd
      · simpa [UpdateOrder, UpdateOne, hany] using hupd
  · rw [mem_keys_iff, hid]; simp
  · rw [mem_keys_iff, hno]; simp

/-! ## Theorems: InsertOrder and GetOrder -/

/-- C7: distinctness of the stored order numbers is an invariant of `InsertOrder`: if
they are pairwise distinct before a call they are pairwise distinct after it; hence
the order numbers of any number of successive insertions that succeed are pairwise
distinct, none of them was in the store before, and the store stays duplicate-free. -/
theorem InsertOrder_order_numbers_distinct (oc : Collection)
    (hdistinct : (orderNumbers oc).Nodup) :
    (∀ env fuel o res oc', InsertOrder oc env fuel o = some (res, oc') →
      (orderNumbers oc').Nodup) ∧
    (∀ reqs results oc', insertMany oc reqs = some (results, oc') →
      results.length = reqs.length ∧
      (insertedNumbers results).Nodup ∧
      (∀ n ∈ insertedNumbers results, n ∉ orderNumbers oc) ∧
      (orderNumbers oc').Nodup) := by
  have hmany : ∀ reqs results oc', insertMany oc reqs = some (results, oc') →
      results.length = reqs.length ∧
      (insertedNumbers results).Nodup ∧
      (∀ n ∈ insertedNumbers results, n ∉ orderNumbers oc) ∧
      (orderNumbers oc').Nodup := by
    intro reqs results oc' h
    obtain ⟨hlen, hnum, hnodup⟩ := insertMany_orderNumbers reqs oc results oc' h
    have hnd := hnodup hdistinct
    rw [hnum, List.nodup_append] at hnd
    refine ⟨hlen, hnd.2.1, ?_, hnodup hdistinct⟩
    intro n hn hmem
    exact hnd.2.2 hmem hn
  refine ⟨?_, hmany⟩
  intro env fuel o res oc' h
  have h1 : insertMany oc [(env, fuel, o)] = some ([res], oc') := by
    simp [insertMany, h]
  exact (hmany _ _ _ h1).2.2.2

/-- Witness of C7: inserting `orderNew` into `storeExample` keeps the order numbers
pairwise distinct. -/
theorem InsertOrder_order_numbers_distinct_witness :
    (orderNumbers storeExample).Nodup ∧
    (orderNumbers (storeExample ++ [orderNewStored])).Nodup :=
  ⟨by decide,
   (InsertOrder_order_numbers_distinct storeExample (by decide)).1 envExample 2 orderNew
      (orderNewStored, none) (storeExample ++ [orderNewStored]) (by decide)⟩

/-- C8: when no `FindOne` fails and some candidate of the stream is not the order
number of a stored record, `InsertOrder` terminates (it returns for every fuel above
the index of the first such candidate) and the order number it assigns is the first
candidate of the stream that no stored record has. -/
theorem InsertOrder_assigns_first_free (oc : Collection) (env : InsertEnv) (o : Order)
    (hfault : ∀ j, env.findFault j = none)
    (hfree : ∃ k, candidate env k ∉ orderNumbers oc) :
    ∃ k, candidate env k ∉ orderNumbers oc ∧
      (∀ j, j < k → candidate env j ∈ orderNumbers oc) ∧
      ∀ fuel, k < fuel → ∃ res oc', InsertOrder oc env fuel o = some (res, oc') ∧
        res.1.OrderNumber = candidate env k := by
  classical
  refine ⟨Nat.find hfree, Nat.find_spec hfree, ?_, ?_⟩
  · intro j hj
    by_contra hnot
    exact Nat.find_min hfree hj hnot
  · intro fuel hfuel
    have hloop : InsertOrder.loop oc env fuel 0 = some (candidate env (Nat.find hfree)) := by
      have := loop_complete oc env hfault (Nat.find hfree) 0 fuel hfuel
        (by simpa using Nat.find_spec hfree)
        (fun j hj => by
          have : candidate env j ∈ orderNumbers oc := by
            by_contra hnot
            exact Nat.find_min hfree hj hnot
          simpa using this)
      simpa using this
    unfold InsertOrder
    simp only [hloop]
    cases hI : InsertOne oc { o with OrderNumber := candidate env (Nat.find hfree) }
        env.insertFault env.newID with
    | mk r oc' =>
      cases r with
      | error e => exact ⟨_, _, rfl, rfl⟩
      | ok id => exact ⟨_, _, rfl, rfl⟩

/-- Witness of C8: in `storeExample` the first candidate of `envExample` is taken and
the second is free, so the second is assigned. -/
theorem InsertOrder_assigns_first_free_witness :
    (InsertOrder storeExample envExample 2 orderNew).map (fun r => r.1.1.OrderNumber) =
      some "111111111111111" := by
  obtain ⟨k, hk, hfirst, hfuel⟩ :=
    InsertOrder_assigns_first_free storeExample envExample orderNew (fun _ => rfl)
      ⟨1, by decide⟩
  have hk1 : k = 1 := by
    rcases Nat.lt_trichotomy k 1 with h | h | h
    · have h0 : k = 0 := by omega
      subst h0
      exact absurd (by decide : candidate envExample 0 ∈ orderNumbers storeExample) hk
    · exact h
    · exact absurd (hfirst 1 h) (by decide)
  subst hk1
  obtain ⟨res, oc', hres, hnum⟩ := hfuel 2 (by omega)
  rw [hres]
  simp only [Option.map_some', hnum]
  decide

/-- C9, at a failing input: the identifier of the record that `InsertOrder` stores and
returns is the one the caller supplied when the caller supplied one.  The two inputs
`orderNew` and `orderNewWithID` differ only in `ID`; with the same store, the same
candidates and the same driver-generated identifier the first is stored under the
generated identifier 5 and the second under the caller's identifier 7. -/
theorem InsertOrder_uses_caller_ID :
    InsertOrder storeExample envExample 2 orderNew =
      some ((orderNewStored, none), storeExample ++ [orderNewStored]) ∧
    InsertOrder storeExample envExample 2 orderNewWithID =
      some (({ orderNewStored with ID := 7 }, none),
        storeExample ++ [{ orderNewStored with ID := 7 }]) ∧
    InsertOrder storeExample envExample 2 orderNew ≠
      InsertOrder storeExample envExample 2 orderNewWithID := by
  decide

/-- The order number the caller supplied has no effect on `InsertOrder`: it is
overwritten before the document is persisted. -/
theorem InsertOrder_ignores_caller_OrderNumber (oc : Collection) (env : InsertEnv)
    (fuel : Nat) (o : Order) (n : String) :
    InsertOrder oc env fuel { o with OrderNumber := n } = InsertOrder oc env fuel o := by
  rfl

/-- C10: when `InsertOrder` succeeds and returns `o'`, `GetOrder` by the order number
of `o'` succeeds on the store it leaves and returns `o'`, which is the input order
in every field but `ID` and `OrderNumber` (the image paths included, in order). -/
theorem InsertOrder_then_GetOrder (oc : Collection) (env : InsertEnv) (fuel : Nat)
    (o o' : Order) (oc' : Collection)
    (h : InsertOrder oc env fuel o = some ((o', none), oc')) :
    GetOrder oc' (byOrderNumber o'.OrderNumber) none = (o', none) ∧
    o' = { o with ID := o'.ID, OrderNumber := o'.OrderNumber } := by
  obtain ⟨hfresh, heq, hstep⟩ := InsertOrder_spec oc env fuel o o' none oc' h
  rcases hstep with ⟨-, rfl⟩ | ⟨herr, -⟩
  · refine ⟨?_, heq⟩
    have hnone : oc.find? (byOrderNumber o'.OrderNumber) = none :=
      (find_byOrderNumber_eq_none oc _).2 hfresh
    simp [GetOrder, FindOne, List.find?_append, hnone, byOrderNumber]
  · exact absurd rfl herr

/-- Witness of C10: after `orderNew` is inserted into `storeExample`, `GetOrder` by the
assigned number returns the stored record. -/
theorem InsertOrder_then_GetOrder_witness :
    GetOrder (storeExample ++ [orderNewStored]) (byOrderNumber "111111111111111") none =
      (orderNewStored, none) :=
  (InsertOrder_then_GetOrder storeExample envExample 2 orderNew orderNewStored
    (storeExample ++ [orderNewStored]) (by decide)).1

/-! ## Theorems: GetRandomOrderNumber -/

/-- Every symbol of the alphabet is one byte in UTF-8. -/
theorem base_utf8Size : ∀ c ∈ base, c.utf8Size = 1 := by decide

/-- The byte length of a string whose characters are all one byte long. -/
theorem utf8ByteSize_of_ascii (l : List Char) (h : ∀ c ∈ l, c.utf8Size = 1) :
    (String.mk l).utf8ByteSize = l.length := by
  induction l with
  | nil => rfl
  | cons c cs ih =>
    have hc : c.utf8Size = 1 := h c (List.mem_cons_self c cs)
    have hcs : ∀ x ∈ cs, x.utf8Size = 1 := fun x hx => h x (List.mem_cons_of_mem c hx)
    have ih' := ih hcs
    simp only [String.utf8ByteSize, String.utf8ByteSize.go, List.length_cons] at ih' ⊢
    omega

/-- Every character of an order number is a symbol of the alphabet. -/
theorem GetRandomOrderNumber_mem_base (rnd : Nat → Nat) :
    ∀ c ∈ (GetRandomOrderNumber rnd).toList, c ∈ base := by
  intro c hc
  have hlist : (GetRandomOrderNumber rnd).toList =
      (List.range 15).map (fun i => base.getD (rnd i % base.length) '0') := rfl
  rw [hlist, List.mem_map] at hc
  obtain ⟨i, -, rfl⟩ := hc
  have hlt : rnd i % base.length < base.length := Nat.mod_lt _ (by decide)
  rw [List.getD_eq_getElem _ _ hlt]
  exact List.getElem_mem _

/-- C11: whatever the random source yields, `GetRandomOrderNumber` returns a string of
exactly 15 characters, each of them one of the 62 pairwise distinct symbols of the
alphabet, which are the ASCII digits and letters; so the string is also 15 bytes long,
which is what Go's `len` measures. -/
theorem GetRandomOrderNumber_shape (rnd : Nat → Nat) :
    (GetRandomOrderNumber rnd).length = 15 ∧
    (∀ c ∈ (GetRandomOrderNumber rnd).toList, c ∈ base) ∧
    base.length = 62 ∧ base.Nodup ∧
    (∀ c ∈ base, c.isDigit = true ∨ c.isLower = true ∨ c.isUpper = true) ∧
    (GetRandomOrderNumber rnd).utf8ByteSize = 15 := by
  have hlen : (GetRandomOrderNumber rnd).length = 15 := by
    simp [GetRandomOrderNumber, String.length]
  refine ⟨hlen, GetRandomOrderNumber_mem_base rnd, by decide, by decide, by decide, ?_⟩
  have h := utf8ByteSize_of_ascii (GetRandomOrderNumber rnd).toList
    (fun c hc => base_utf8Size c (GetRandomOrderNumber_mem_base rnd c hc))
  simpa [String.length] using h.trans hlen

/-! ## Theorems: the filter of GetOrdersHandler -/

/-- What `Atoi` accepts is a non-empty run of decimal digits, with at most a sign
before it. -/
theorem Atoi_some_shape (s : String) (i : Int) (h : Atoi s = some i) :
    ∃ digits : List Char, digits ≠ [] ∧ (∀ c ∈ digits, c.isDigit = true) ∧
      (s.toList = digits ∨ s.toList = '+' :: digits ∨ s.toList = '-' :: digits) := by
  unfold Atoi at h
  split at h
  next neg digits hsplit =>
    by_cases hbad : (digits.isEmpty || !digits.all Char.isDigit) = true
    · simp [hbad] at h
    · simp only [Bool.or_eq_true, Bool.not_eq_true', not_or, Bool.not_eq_true,
        Bool.not_eq_false] at hbad
      refine ⟨digits, ?_, ?_, ?_⟩
      · intro hnil
        simp [hnil] at hbad
      · intro c hc
        exact List.all_eq_true.1 hbad.2 c hc
      · split at hsplit
        · next cs heq =>
          simp only [Prod.mk.injEq] at hsplit
          rw [heq, ← hsplit.2]
          exact Or.inr (Or.inr rfl)
        · next cs heq =>
          simp only [Prod.mk.injEq] at hsplit
          rw [heq, ← hsplit.2]
          exact Or.inr (Or.inl rfl)
        · next cs _ _ =>
          simp only [Prod.mk.injEq] at hsplit
          rw [← hsplit.2]
          exact Or.inl rfl

/-- Looking up a key other than the one just assigned. -/
theorem QueryParam_insert (q1 q2 : Query) (name value key : String) (h : key ≠ name) :
    QueryParam (q1 ++ (name, value) :: q2) key = QueryParam (q1 ++ q2) key := by
  have hb : (key == name) = false := by simpa using h
  have hl : List.lookup key (q1 ++ (name, value) :: q2) = List.lookup key (q1 ++ q2) := by
    induction q1 with
    | nil => simp [List.lookup, hb]
    | cons kv q1 ih =>
      obtain ⟨k', v'⟩ := kv
      cases hk : (key == k') <;> simp [List.lookup, hk, ih]
  simp [QueryParam, hl]

/-- The binding of every key in the filter of `GetOrdersHandler`. -/
theorem GetOrdersHandler.filter_lookup (q : Query) (key : String) :
    (GetOrdersHandler.filter q).lookup key =
      if key = "product_user_id" ∧ (Atoi (QueryParam q "product_user_id")).isSome then
        (Atoi (QueryParam q "product_user_id")).map BValue.int
      else if key = "status" ∧ QueryParam q "status" ≠ "" then
        some (.string (QueryParam q "status"))
      else if key = "buyer_id" then (Atoi (QueryParam q "buyer_id")).map BValue.int
      else none := by
  unfold GetOrdersHandler.filter
  cases h1 : Atoi (QueryParam q "buyer_id") <;>
    cases h3 : Atoi (QueryParam q "product_user_id") <;>
    by_cases h2 : QueryParam q "status" = "" <;>
    simp [h2, lookup_set]

/-- C12: for each of the keys `buyer_id` and `product_user_id`, the filter built by
`GetOrdersHandler` binds the key exactly when `strconv.Atoi` accepts the raw value
of the parameter, and then binds it to the parsed integer; the raw value of an absent
parameter is the empty string, which `Atoi` rejects, as it rejects everything that is
not a run of digits with at most a sign before it; and whatever the parameters are,
the handler answers 200 when the store call goes through. -/
theorem GetOrdersHandler_filter_int_keys (q : Query) :
    (GetOrdersHandler.filter q).lookup "buyer_id" =
      (Atoi (QueryParam q "buyer_id")).map BValue.int ∧
    (GetOrdersHandler.filter q).lookup "product_user_id" =
      (Atoi (QueryParam q "product_user_id")).map BValue.int ∧
    ("buyer_id" ∈ M.keys (GetOrdersHandler.filter q) ↔
      (Atoi (QueryParam q "buyer_id")).isSome = true) ∧
    ("product_user_id" ∈ M.keys (GetOrdersHandler.filter q) ↔
      (Atoi (QueryParam q "product_user_id")).isSome = true) ∧
    QueryParam [] "buyer_id" = "" ∧ Atoi "" = none ∧ Atoi "abc" = none ∧
    (∀ (s : String) (i : Int), Atoi s = some i →
      ∃ digits : List Char, digits ≠ [] ∧ (∀ c ∈ digits, c.isDigit = true) ∧
        (s.toList = digits ∨ s.toList = '+' :: digits ∨ s.toList = '-' :: digits)) ∧
    ∀ (u : User) (oc : Collection), (GetOrdersHandler (some u) q oc none).status = 200 := by
  have hb : (GetOrdersHandler.filter q).lookup "buyer_id" =
      (Atoi (QueryParam q "buyer_id")).map BValue.int := by
    simp [GetOrdersHandler.filter_lookup]
  have hp : (GetOrdersHandler.filter q).lookup "product_user_id" =
      (Atoi (QueryParam q "product_user_id")).map BValue.int := by
    rw [GetOrdersHandler.filter_lookup]
    cases Atoi (QueryParam q "product_user_id") <;> simp
  refine ⟨hb, hp, ?_, ?_, rfl, by decide, by decide, Atoi_some_shape, ?_⟩
  · rw [mem_keys_iff, hb]
    cases Atoi (QueryParam q "buyer_id") <;> simp
  · rw [mem_keys_iff, hp]
    cases Atoi (QueryParam q "product_user_id") <;> simp
  · intro u oc
    simp [GetOrdersHandler, GetOrders, Find]

/-- Witness of C12: the parameter `buyer_id=12` is bound to the integer 12, and the
accepted string `12` is a run of digits. -/
theorem GetOrdersHandler_filter_int_keys_witness :
    (GetOrdersHandler.filter [("buyer_id", "12")]).lookup "buyer_id" = some (.int 12) ∧
    ∃ digits : List Char, digits ≠ [] ∧ (∀ c ∈ digits, c.isDigit = true) ∧
      ("12".toList = digits ∨ "12".toList = '+' :: digits ∨ "12".toList = '-' :: digits) :=
  ⟨(GetOrdersHandler_filter_int_keys [("buyer_id", "12")]).1.trans (by decide),
   (GetOrdersHandler_filter_int_keys [("buyer_id", "12")]).2.2.2.2.2.2.2.1 "12" 12
     (by decide)⟩

/-- C13: the filter built by `GetOrdersHandler` binds the key `status` exactly when the
raw `status` parameter is a non-empty string, and then binds it to that raw string. -/
theorem GetOrdersHandler_filter_status (q : Query) :
    ((GetOrdersHandler.filter q).lookup "status" =
      if QueryParam q "status" = "" then none
      else some (.string (QueryParam q "status"))) ∧
    ("status" ∈ M.keys (GetOrdersHandler.filter q) ↔ QueryParam q "status" ≠ "") := by
  have hs : (GetOrdersHandler.filter q).lookup "status" =
      if QueryParam q "status" = "" then none
      else some (.string (QueryParam q "status")) := by
    rw [GetOrdersHandler.filter_lookup]
    by_cases h : QueryParam q "status" = "" <;> simp [h]
  refine ⟨hs, ?_⟩
  rw [mem_keys_iff, hs]
  by_cases h : QueryParam q "status" = "" <;> simp [h]

/-- C14: the filter built by `GetOrdersHandler` binds no key other than `buyer_id`,
`status` and `product_user_id`; a parameter with any other name, wherever it stands
among the parameters, does not change the filter; and without parameters the filter
is empty. -/
theorem GetOrdersHandler_filter_keys (q : Query) :
    (∀ key ∈ M.keys (GetOrdersHandler.filter q),
      key = "buyer_id" ∨ key = "status" ∨ key = "product_user_id") ∧
    (∀ (q1 q2 : Query) (name value : String),
      name ≠ "buyer_id" → name ≠ "status" → name ≠ "product_user_id" →
      GetOrdersHandler.filter (q1 ++ (name, value) :: q2) =
        GetOrdersHandler.filter (q1 ++ q2)) ∧
    GetOrdersHandler.filter [] = [] := by
  refine ⟨?_, ?_, by decide⟩
  · intro key hkey
    rw [mem_keys_iff, GetOrdersHandler.filter_lookup] at hkey
    by_contra hne
    simp only [not_or] at hne
    simp [hne.1, hne.2.1, hne.2.2] at hkey
  · intro q1 q2 name value h1 h2 h3
    simp only [GetOrdersHandler.filter,
      QueryParam_insert q1 q2 name value "buyer_id" (Ne.symm h1),
      QueryParam_insert q1 q2 name value "status" (Ne.symm h2),
      QueryParam_insert q1 q2 name value "product_user_id" (Ne.symm h3)]

/-- Witness of C14: the parameter `foo` between two recognised parameters. -/
theorem GetOrdersHandler_filter_keys_witness :
    GetOrdersHandler.filter ([("buyer_id", "1")] ++ ("foo", "bar") :: [("status", "done")]) =
      GetOrdersHandler.filter ([("buyer_id", "1")] ++ [("status", "done")]) :=
  (GetOrdersHandler_filter_keys []).2.1 [("buyer_id", "1")] [("status", "done")] "foo" "bar"
    (by decide) (by decide) (by decide)

/-! ## Theorems: GetOrders, GetOrder and DeleteOrder -/

/-- The cursor loop of `GetOrders` collects the documents in the order it reads them. -/
theorem foldl_append_singleton (cur acc : List Order) :
    cur.foldl (fun orders o => orders ++ [o]) acc = acc ++ cur := by
  induction cur generalizing acc with
  | nil => simp
  | cons o os ih => simp [ih]

/-- When the `Find` call goes through, `GetOrders` returns the selected documents. -/
theorem GetOrders_eq (oc : Collection) (filter : Filter) :
    GetOrders oc filter none = (oc.filter filter, none) := by
  simp [GetOrders, Find, foldl_append_singleton]

/-- A document is selected by the filter that a `bson.M` denotes exactly when it
satisfies the equality predicate of every binding of the map. -/
theorem M.matches_iff (m : M) (d : Order) :
    M.matches m d = true ↔
      ∀ key v, m.lookup key = some v → ∃ x, d.field key = some x ∧ x.eqValue v = true := by
  simp only [M.matches, List.all_eq_true]
  constructor
  · intro h key v hv
    have hmem : key ∈ M.keys m := by rw [mem_keys_iff, hv]; rfl
    have := h key hmem
    rw [hv] at this
    cases hx : d.field key with
    | none => simp [hx] at this
    | some x => exact ⟨x, rfl, by simpa [hx] using this⟩
  · intro h key _
    cases hv : m.lookup key with
    | none => rfl
    | some v =>
      obtain ⟨x, hx, hxv⟩ := h key v hv
      simp [hx, hxv]

/-- C15: when the `Find` call goes through, `GetOrders` returns without error exactly
the stored records the filter selects, each once (as a permutation: no order is
promised); a filter given as a `bson.M` selects the records that satisfy every one of
its equality predicates, so the empty filter returns every stored record; and when no
record is selected the result is the empty sequence and no error. -/
theorem GetOrders_returns_selected (oc : Collection) (filter : Filter) :
    (GetOrders oc filter none).2 = none ∧
    (GetOrders oc filter none).1.Perm (oc.filter filter) ∧
    (∀ (m : M) (d : Order), M.matches m d = true ↔
      ∀ key v, m.lookup key = some v → ∃ x, d.field key = some x ∧ x.eqValue v = true) ∧
    (GetOrders oc (M.matches []) none).1.Perm oc ∧
    ((∀ d ∈ oc, filter d = false) → GetOrders oc filter none = ([], none)) := by
  refine ⟨by rw [GetOrders_eq], by rw [GetOrders_eq], M.matches_iff, ?_, ?_⟩
  · rw [GetOrders_eq]
    have hall : oc.filter (M.matches []) = oc := by
      apply List.filter_eq_self.2
      intro d _
      rfl
    rw [hall]
  · intro h
    rw [GetOrders_eq]
    have hnone : oc.filter filter = [] := by
      apply List.filter_eq_nil_iff.2
      intro d hd
      simp [h d hd]
    rw [hnone]

/-- Witness of C15: no stored order has the status `cancelled`. -/
theorem GetOrders_returns_selected_witness :
    GetOrders [orderA, orderB] (M.matches [("status", .string "cancelled")]) none =
      ([], none) :=
  (GetOrders_returns_selected [orderA, orderB]
    (M.matches [("status", .string "cancelled")])).2.2.2.2 (by decide)

/-- C16: when the `FindOne` call goes through, `GetOrder` fails with
`mongo.ErrNoDocuments` if and only if the filter selects no stored record; otherwise it
returns without error a stored record that the filter selects. -/
theorem GetOrder_not_found_iff (oc : Collection) (filter : Filter) :
    ((GetOrder oc filter none).2 = some .ErrNoDocuments ↔ ∀ d ∈ oc, filter d = false) ∧
    ((∃ d ∈ oc, filter d = true) →
      (GetOrder oc filter none).2 = none ∧ (GetOrder oc filter none).1 ∈ oc ∧
      filter (GetOrder oc filter none).1 = true) := by
  cases hfind : oc.find? filter with
  | none =>
    have hno : ∀ d ∈ oc, filter d = false := by
      intro d hd
      have := List.find?_eq_none.1 hfind d hd
      simpa using this
    refine ⟨?_, ?_⟩
    · simp only [GetOrder, FindOne, hfind]
      exact ⟨fun _ => hno, fun _ => trivial⟩
    rintro ⟨d, hd, hfd⟩
    rw [hno d hd] at hfd
    cases hfd
  | some r =>
    have hr : filter r = true := List.find?_some hfind
    have hmem : r ∈ oc := List.mem_of_find?_eq_some hfind
    refine ⟨?_, fun _ => by simp [GetOrder, FindOne, hfind, hr, hmem]⟩
    simp only [GetOrder, FindOne, hfind]
    constructor
    · intro h; cases h
    · intro h
      rw [h r hmem] at hr
      cases hr

/-- Witness of C16: the order number of `orderB` selects `orderB`. -/
theorem GetOrder_not_found_iff_witness :
    (GetOrder [orderA, orderB] (byOrderNumber "bbbbbbbbbbbbbbb") none).2 = none ∧
    (GetOrder [orderA, orderB] (byOrderNumber "bbbbbbbbbbbbbbb") none).1 ∈ [orderA, orderB] ∧
    byOrderNumber "bbbbbbbbbbbbbbb"
      (GetOrder [orderA, orderB] (byOrderNumber "bbbbbbbbbbbbbbb") none).1 = true :=
  (GetOrder_not_found_iff [orderA, orderB] (byOrderNumber "bbbbbbbbbbbbbbb")).2
    ⟨orderB, by decide, by decide⟩

/-- In a store with pairwise distinct order numbers, removing the first record with a
given order number leaves no record with that number. -/
theorem eraseP_byOrderNumber (n : String) (oc : Collection)
    (h : (orderNumbers oc).Nodup) : n ∉ orderNumbers (oc.eraseP (byOrderNumber n)) := by
  induction oc with
  | nil => simp [orderNumbers]
  | cons d ds ih =>
    have hnd : d.OrderNumber ∉ orderNumbers ds ∧ (orderNumbers ds).Nodup := by
      simpa [orderNumbers] using h
    by_cases hd : d.OrderNumber = n
    · have hb : byOrderNumber n d = true := by simp [byOrderNumber, hd]
      rw [List.eraseP_cons_of_pos hb]
      rw [← hd]
      exact hnd.1
    · have hb : ¬ byOrderNumber n d = true := by simp [byOrderNumber, hd]
      rw [List.eraseP_cons_of_neg hb]
      have ih' := ih hnd.2
      simp only [orderNumbers, List.map_cons, List.mem_cons, not_or]
      exact ⟨fun h => hd h.symm, ih'⟩

/-- C17: in a store with pairwise distinct order numbers, after `DeleteOrder` filtered
by the order number of an order `A` (a stored one in particular) has returned success,
`GetOrder` with the same filter fails with `mongo.ErrNoDocuments`. -/
theorem DeleteOrder_then_GetOrder (oc : Collection) (A : Order) (fault : Option String)
    (hdistinct : (orderNumbers oc).Nodup)
    (hok : (DeleteOrder oc (byOrderNumber A.OrderNumber) fault).1 = none) :
    GetOrder (DeleteOrder oc (byOrderNumber A.OrderNumber) fault).2
        (byOrderNumber A.OrderNumber) none = (Order.zero, some .ErrNoDocuments) := by
  cases fault with
  | some msg => simp [DeleteOrder, DeleteOne] at hok
  | none =>
    have hgone := eraseP_byOrderNumber A.OrderNumber oc hdistinct
    have hfind := (find_byOrderNumber_eq_none _ _).2 hgone
    simp [DeleteOrder, DeleteOne, GetOrder, FindOne, hfind]

/-- Witness of C17: deleting `orderA` from the store of `orderA` and `orderB`. -/
theorem DeleteOrder_then_GetOrder_witness :
    GetOrder (DeleteOrder [orderA, orderB] (byOrderNumber orderA.OrderNumber) none).2
        (byOrderNumber orderA.OrderNumber) none = (Order.zero, some .ErrNoDocuments) :=
  DeleteOrder_then_GetOrder [orderA, orderB] orderA none (by decide) (by decide)

/-! ## Theorems: UpdateOrder on several records and with an empty merge set -/

/-- C18, refuted at a concrete input: the filter `bson.M{"buyer_id": 1}` selects both
stored orders, `UpdateOrder` succeeds, and only the first of them gets the new status;
the store is not the one in which the merge set is applied to all selected records. -/
theorem UpdateOrder_not_all_matching :
    M.matches filterBuyerOne orderA = true ∧ M.matches filterBuyerOne orderB = true ∧
    (UpdateOrder [orderA, orderB] (M.matches filterBuyerOne) updateStatusX none).1 = none ∧
    (UpdateOrder [orderA, orderB] (M.matches filterBuyerOne) updateStatusX none).2.map
      (fun d => d.Status) = ["x", "done"] ∧
    (UpdateOrder [orderA, orderB] (M.matches filterBuyerOne) updateStatusX none).2 ≠
      updateAll (M.matches filterBuyerOne) (UpdateOrder.value updateStatusX)
        [orderA, orderB] := by
  decide

/-- C18 as amended: `UpdateOrder` applies the merge set to the first record the filter
selects and to no other: the records before it and all records after it, selected by
the filter or not, are left as they were. -/
theorem UpdateOrder_updates_first_only (pre post : Collection) (r p : Order)
    (filter : Filter) (hr : filter r = true) (hpre : ∀ d ∈ pre, filter d = false) :
    UpdateOrder (pre ++ r :: post) filter p none =
      (none, pre ++ applySet r (UpdateOrder.value p) :: post) := by
  have hany : (pre ++ r :: post).any filter = true := by simp [hr]
  simp only [UpdateOrder, UpdateOne, hany, updateFirst_append filter _ pre post r hpre hr]
  simp

/-- Witness of the amended C18: of the two orders of buyer 1 only the first is
updated. -/
theorem UpdateOrder_updates_first_only_witness :
    UpdateOrder ([] ++ orderA :: [orderB]) (M.matches filterBuyerOne) updateStatusX none =
      (none, [] ++ applySet orderA (UpdateOrder.value updateStatusX) :: [orderB]) :=
  UpdateOrder_updates_first_only [] [orderB] orderA updateStatusX (M.matches filterBuyerOne)
    (by decide) (by decide)

/-- A `bson.M` in which no key is bound is the empty map. -/
theorem eq_nil_of_lookup_none (m : M) (h : ∀ key, m.lookup key = none) : m = [] := by
  cases m with
  | nil => rfl
  | cons kv m =>
    obtain ⟨k, v⟩ := kv
    have := h k
    simp [List.lookup] at this

/-- The empty `$set` changes no document. -/
theorem updateFirst_nil (filter : Filter) (oc : Collection) :
    updateFirst filter [] oc = oc := by
  induction oc with
  | nil => rfl
  | cons d ds ih =>
    have hd : applySet d [] = d := rfl
    by_cases hf : filter d = true
    · simp [updateFirst, hf, hd]
    · simp [updateFirst, hf, ih]

/-- C19: when every field that `UpdateOrder` looks at is empty or zero in the update
order (strings empty, numbers zero, the image paths nil), the merge set is empty, and
with a filter that selects at least one record `UpdateOrder` returns no error and
leaves every stored record as it was. -/
theorem UpdateOrder_empty_merge_set (oc : Collection) (filter : Filter) (p : Order)
    (hp : p.Status = "" ∧ p.Qty = 0 ∧ p.TotalPrice.isZero = true ∧ p.BuyerID = 0 ∧
      p.BuyerFullName = "" ∧ p.BuyerAddress = "" ∧ p.ProductID = 0 ∧ p.ProductSKU = "" ∧
      p.ProductName = "" ∧ p.ProductPrice.isZero = true ∧ p.ProductWeight.isZero = true ∧
      p.ProductDescription = "" ∧ p.ProductStock = 0 ∧ p.ProductUserID = 0 ∧
      p.ProductUserFullName = "" ∧ p.ProductImagesPath = none)
    (hmatch : ∃ d ∈ oc, filter d = true) :
    UpdateOrder.value p = [] ∧ UpdateOrder oc filter p none = (none, oc) := by
  obtain ⟨h1, h2, h3, h4, h5, h6, h7, h8, h9, h10, h11, h12, h13, h14, h15, h16⟩ := hp
  have hvalue : UpdateOrder.value p = [] := by
    apply eq_nil_of_lookup_none
    intro key
    rw [UpdateOrder.value_lookup]
    simp [h1, h2, h3, h4, h5, h6, h7, h8, h9, h10, h11, h12, h13, h14, h15, h16]
  have hany : oc.any filter = true := by simpa using hmatch
  refine ⟨hvalue, ?_⟩
  simp [UpdateOrder, UpdateOne, hany, hvalue, updateFirst_nil]

/-- Witness of C19: the all-zero update order on the store of `orderA` and `orderB`. -/
theorem UpdateOrder_empty_merge_set_witness :
    UpdateOrder.value Order.zero = [] ∧
    UpdateOrder [orderA, orderB] (byOrderNumber "aaaaaaaaaaaaaaa") Order.zero none =
      (none, [orderA, orderB]) :=
  UpdateOrder_empty_merge_set [orderA, orderB] (byOrderNumber "aaaaaaaaaaaaaaa") Order.zero
    (by decide) (by decide)

/-! ## Theorems: InsertOrder and driver failures -/

/-- When every existence check fails the loop of `InsertOrder` never ends. -/
theorem loop_of_findFault (oc : Collection) (env : InsertEnv)
    (h : ∀ k, env.findFault k ≠ none) (fuel : Nat) :
    ∀ k, InsertOrder.loop oc env fuel k = none := by
  induction fuel with
  | zero => intro k; rfl
  | succ fuel ih =>
    intro k
    rw [loop_succ, if_neg (fun hc => h k hc.1)]
    exact ih (k + 1)

/-- When the insert itself fails, `InsertOrder` returns the error of the driver and
adds no record to the store. -/
theorem InsertOrder_insert_failure (oc : Collection) (env : InsertEnv) (fuel : Nat)
    (o o' : Order) (err : Option Error) (oc' : Collection) (msg : String)
    (hfault : env.insertFault = some msg)
    (h : InsertOrder oc env fuel o = some ((o', err), oc')) :
    err = some (.driver msg) ∧ oc' = oc := by
  unfold InsertOrder at h
  cases hl : InsertOrder.loop oc env fuel 0 with
  | none => simp [hl] at h
  | some n =>
    simp only [hl, InsertOne, hfault, Option.some.injEq, Prod.mk.injEq] at h
    obtain ⟨⟨-, rfl⟩, rfl⟩ := h
    exact ⟨rfl, rfl⟩

/-- C20, at two failing inputs.  When the first existence check fails and the second
goes through, `InsertOrder` returns no error and adds a record: the failure is
swallowed and the next candidate is tried.  When every existence check fails,
`InsertOrder` does not return at all, whatever the number of iterations allowed. -/
theorem InsertOrder_swallows_FindOne_failure :
    InsertOrder [] envFindFailsOnce 2 orderNew =
      some ((orderNewStored, none), [orderNewStored]) ∧
    ∀ fuel, InsertOrder [] envFindFailsAlways fuel orderNew = none := by
  refine ⟨by decide, ?_⟩
  intro fuel
  have hloop := loop_of_findFault [] envFindFailsAlways (fun _ => by simp [envFindFailsAlways]) fuel 0
  simp [InsertOrder, hloop]

/-! ## Theorems: the handlers of package api -/

/-- `IsOrderValid` does not look at the buyer identifier. -/
theorem IsOrderValid_BuyerID (o : Order) (id : Int) :
    IsOrderValid { o with BuyerID := id } = IsOrderValid o := rfl

/-- C21: when the authorized user has a role other than `buyer`, `AddOrderHandler`
answers 403 and leaves the store as it was, whatever order data was submitted and
whatever the store would have done. -/
theorem AddOrderHandler_forbidden (u : User) (hrole : u.Role ≠ "buyer")
    (bound : Except Error Order) (oc : Collection) (env : InsertEnv) (fuel : Nat) :
    AddOrderHandler (some u) bound oc env fuel =
      some ({ status := 403
              body := .message "user doesn't have authority to access this API" }, oc) := by
  simp [AddOrderHandler, hrole]

/-- Witness of C21: a seller submitting a complete order. -/
theorem AddOrderHandler_forbidden_witness :
    AddOrderHandler (some userSeller) (.ok orderNew) storeExample envExample 2 =
      some ({ status := 403
              body := .message "user doesn't have authority to access this API" },
            storeExample) :=
  AddOrderHandler_forbidden userSeller (by decide) (.ok orderNew) storeExample envExample 2

/-- C22: when `AddOrderHandler` answers 201, the body is the created order, that order
is the record appended to the store, and its `BuyerID` is the `ID` of the authorized
user, whatever `BuyerID` the bound order carried. -/
theorem AddOrderHandler_stamps_buyer (u : User) (bound : Except Error Order)
    (oc : Collection) (env : InsertEnv) (fuel : Nat) (resp : Response) (oc' : Collection)
    (h : AddOrderHandler (some u) bound oc env fuel = some (resp, oc'))
    (hcreated : resp.status = 201) :
    ∃ o', resp.body = .order o' ∧ oc' = oc ++ [o'] ∧ o'.BuyerID = u.ID := by
  unfold AddOrderHandler at h
  by_cases hrole : u.Role = "buyer"
  · cases bound with
    | error err =>
      simp only [hrole, bne_self_eq_false, Bool.false_eq_true, if_false, Option.some.injEq,
        Prod.mk.injEq] at h
      obtain ⟨rfl, -⟩ := h
      simp at hcreated
    | ok o =>
      simp only [hrole, bne_self_eq_false, Bool.false_eq_true, if_false] at h
      cases hv : IsOrderValid { o with BuyerID := u.ID } with
      | some err =>
        simp only [hv, Option.some.injEq, Prod.mk.injEq] at h
        obtain ⟨rfl, -⟩ := h
        simp at hcreated
      | none =>
        simp only [hv] at h
        cases hI : InsertOrder oc env fuel { o with BuyerID := u.ID } with
        | none => simp [hI] at h
        | some r =>
          obtain ⟨⟨o1, err1⟩, oc1⟩ := r
          obtain ⟨-, heq, hstep⟩ := InsertOrder_spec oc env fuel _ o1 err1 oc1 hI
          cases err1 with
          | some e =>
            simp only [hI, Option.some.injEq, Prod.mk.injEq] at h
            obtain ⟨rfl, -⟩ := h
            simp at hcreated
          | none =>
            simp only [hI, Option.some.injEq, Prod.mk.injEq] at h
            obtain ⟨rfl, rfl⟩ := h
            rcases hstep with ⟨-, hoc⟩ | ⟨herr, -⟩
            · refine ⟨o1, rfl, hoc, ?_⟩
              rw [heq]
            · exact absurd rfl herr
  · simp only [bne_iff_ne, ne_eq, hrole, not_false_eq_true, if_true, Option.some.injEq,
      Prod.mk.injEq] at h
    obtain ⟨rfl, -⟩ := h
    simp at hcreated

/-- Witness of C22: the buyer with identifier 9 submits `orderNew`, which names buyer 4;
the created and stored order carries buyer 9. -/
theorem AddOrderHandler_stamps_buyer_witness :
    AddOrderHandler (some userBuyer) (.ok orderNew) storeExample envExample 2 =
      some ({ status := 201, body := .order { orderNewStored with BuyerID := 9 } },
            storeExample ++ [{ orderNewStored with BuyerID := 9 }]) ∧
    ({ orderNewStored with BuyerID := 9 } : Order).BuyerID = userBuyer.ID := by
  have hrun : AddOrderHandler (some userBuyer) (.ok orderNew) storeExample envExample 2 =
      some ({ status := 201, body := .order { orderNewStored with BuyerID := 9 } },
            storeExample ++ [{ orderNewStored with BuyerID := 9 }]) := by decide
  obtain ⟨o', hbody, -, hid⟩ :=
    AddOrderHandler_stamps_buyer userBuyer (.ok orderNew) storeExample envExample 2 _ _
      hrun rfl
  refine ⟨hrun, ?_⟩
  simp only [Body.order.injEq] at hbody
  rw [hbody]
  exact hid

/-- C23: when the user is a buyer and the bound order fails `IsOrderValid`,
`AddOrderHandler` answers 400 with the validation message and leaves the store as it
was. -/
theorem AddOrderHandler_invalid_order (u : User) (hrole : u.Role = "buyer") (o : Order)
    (err : Error) (hinvalid : IsOrderValid o = some err) (oc : Collection)
    (env : InsertEnv) (fuel : Nat) :
    AddOrderHandler (some u) (.ok o) oc env fuel =
      some ({ status := 400
              body := .message ("Order data not completed/invalid => " ++ err.message) },
            oc) := by
  have hv : IsOrderValid { o with BuyerID := u.ID } = some err := by
    rw [IsOrderValid_BuyerID]; exact hinvalid
  simp [AddOrderHandler, hrole, hv]

/-- Witness of C23: a buyer submits an order that has only a status. -/
theorem AddOrderHandler_invalid_order_witness :
    AddOrderHandler (some userBuyer) (.ok orderStatusOnly) storeExample envExample 2 =
      some ({ status := 400
              body := .message ("Order data not completed/invalid => " ++
                (Error.errorf "qty empty/not found").message) },
            storeExample) :=
  AddOrderHandler_invalid_order userBuyer (by decide) orderStatusOnly
    (.errorf "qty empty/not found") (by decide) storeExample envExample 2

/-- The filter with the single predicate `order_number = v` selects the records whose
order number is `v`. -/
theorem orderNumberFilter_matches (v : String) (d : Order) :
    M.matches (orderNumberFilter v) d = (d.OrderNumber == v) := by
  simp [M.matches, orderNumberFilter, M.keys, List.lookup, Order.field, Stored.eqValue]

/-- C24: when the query parameter `order_number` is absent or empty,
`UpdateOrderHandler` and `DeleteOrderHandler` answer 400 and leave the store as it was;
otherwise the filter they hand to `UpdateOrder` and `DeleteOrder` is the map with the
single binding of `order_number` to the value given, which selects the records with
that order number. -/
theorem handlers_require_order_number (u : User) (q : Query) (oc : Collection)
    (fault : Option String) :
    (q.lookup "order_number" = none → QueryParam q "order_number" = "") ∧
    (QueryParam q "order_number" = "" →
      (∀ bound, (UpdateOrderHandler (some u) bound q oc fault).1.status = 400 ∧
        (UpdateOrderHandler (some u) bound q oc fault).2 = oc) ∧
      DeleteOrderHandler (some u) q oc fault =
        ({ status := 400, body := .message "order_number empty/not found" }, oc)) ∧
    (QueryParam q "order_number" ≠ "" →
      (∀ o, UpdateOrderHandler (some u) (.ok o) q oc fault =
        match UpdateOrder oc (M.matches (orderNumberFilter (QueryParam q "order_number")))
          o fault with
        | (some err, oc') =>
          ({ status := 500
             body := .message
               ("There's an error when updating order data => " ++ err.message) }, oc')
        | (none, oc') =>
          ({ status := 200, body := .message "Update order success!" }, oc')) ∧
      (DeleteOrderHandler (some u) q oc fault =
        match DeleteOrder oc (M.matches (orderNumberFilter (QueryParam q "order_number")))
          fault with
        | (some err, oc') =>
          ({ status := 500
             body := .message
               ("There's an error when deleting order data => " ++ err.message) }, oc')
        | (none, oc') =>
          ({ status := 200, body := .message "Delete order success!" }, oc')) ∧
      M.keys (orderNumberFilter (QueryParam q "order_number")) = ["order_number"] ∧
      ∀ d, M.matches (orderNumberFilter (QueryParam q "order_number")) d =
        (d.OrderNumber == QueryParam q "order_number")) := by
  refine ⟨?_, ?_, ?_⟩
  · intro h
    simp [QueryParam, h]
  · intro h
    refine ⟨?_, by simp [DeleteOrderHandler, h]⟩
    intro bound
    cases bound <;> simp [UpdateOrderHandler, h]
  · intro h
    refine ⟨?_, ?_, rfl, orderNumberFilter_matches _⟩
    · intro o
      simp only [UpdateOrderHandler, beq_iff_eq, h, if_false, M.set, orderNumberFilter]
    · simp only [DeleteOrderHandler, beq_iff_eq, h, if_false, M.set, orderNumberFilter]

/-- Witness of C24: a request without parameters, and one that names `orderB`. -/
theorem handlers_require_order_number_witness :
    DeleteOrderHandler (some userBuyer) [] [orderA, orderB] none =
      ({ status := 400, body := .message "order_number empty/not found" },
       [orderA, orderB]) ∧
    M.keys (orderNumberFilter (QueryParam [("order_number", "bbbbbbbbbbbbbbb")]
      "order_number")) = ["order_number"] :=
  ⟨((handlers_require_order_number userBuyer [] [orderA, orderB] none).2.1 (by decide)).2,
   ((handlers_require_order_number userBuyer [("order_number", "bbbbbbbbbbbbbbb")]
      [orderA, orderB] none).2.2 (by decide)).2.2.1⟩

/-! ## Theorems: what IsOrderValid says about the quantity -/

/-- C25, refuted at a concrete input: the order `orderNegativeQty`, whose `Qty` is -1,
passes `IsOrderValid`. -/
theorem IsOrderValid_accepts_negative_qty :
    IsOrderValid orderNegativeQty = none ∧ ¬ (0 < orderNegativeQty.Qty) := by
  decide

/-- C25 as amended: every order that passes `IsOrderValid` has a non-zero `Qty`. -/
theorem IsOrderValid_qty_ne_zero (o : Order) (h : IsOrderValid o = none) : o.Qty ≠ 0 := by
  intro hq
  unfold IsOrderValid at h
  by_cases h1 : TrimSpace o.Status = ""
  · simp [h1] at h
  · simp [h1, hq] at h

/-- Witness of the amended C25. -/
theorem IsOrderValid_qty_ne_zero_witness : orderNegativeQty.Qty ≠ 0 :=
  IsOrderValid_qty_ne_zero orderNegativeQty (by decide)

/-! ## Theorems: idempotence of UpdateOrder -/

/-- Applying the same `$set` a second time changes nothing. -/
theorem applySet_applySet (d : Order) (set : M) :
    applySet (applySet d set) set = applySet d set := by
  simp only [applySet]
  congr 1 <;> (split <;> first | rfl | (split <;> simp_all))

/-- A second `UpdateOne` with the same arguments changes nothing more, provided the
`$set` does not change which documents the filter selects. -/
theorem updateFirst_updateFirst (filter : Filter) (set : M)
    (hstable : ∀ d, filter (applySet d set) = filter d) (oc : Collection) :
    updateFirst filter set (updateFirst filter set oc) = updateFirst filter set oc := by
  induction oc with
  | nil => rfl
  | cons d ds ih =>
    by_cases hd : filter d = true
    · have hd' : filter (applySet d set) = true := by rw [hstable]; exact hd
      simp [updateFirst, hd, hd', applySet_applySet]
    · simp [updateFirst, hd, ih]

/-- `UpdateOne` does not change whether the filter selects some document, provided
the `$set` does not change which documents the filter selects. -/
theorem any_updateFirst (filter : Filter) (set : M)
    (hstable : ∀ d, filter (applySet d set) = filter d) (oc : Collection) :
    (updateFirst filter set oc).any filter = oc.any filter := by
  induction oc with
  | nil => rfl
  | cons d ds ih =>
    by_cases hd : filter d = true
    · have hd' : filter (applySet d set) = true := by rw [hstable]; exact hd
      simp [updateFirst, hd, hd']
    · simp [updateFirst, hd, ih]

/-- `UpdateOrder` twice is `UpdateOrder` once when the merge set does not change which
records the filter selects. -/
theorem UpdateOrder_twice (oc : Collection) (filter : Filter) (p : Order)
    (fault : Option String)
    (hstable : ∀ d, filter (applySet d (UpdateOrder.value p)) = filter d) :
    UpdateOrder (UpdateOrder oc filter p fault).2 filter p fault =
      UpdateOrder oc filter p fault := by
  cases fault with
  | some msg => simp [UpdateOrder, UpdateOne]
  | none =>
    have h1 := updateFirst_updateFirst filter (UpdateOrder.value p) hstable oc
    have h2 := any_updateFirst filter (UpdateOrder.value p) hstable oc
    by_cases hany : oc.any filter = true
    · simp [UpdateOrder, UpdateOne, hany, h1, h2]
    · simp [UpdateOrder, UpdateOne, hany, h1, h2]

/-- C26, refuted at concrete inputs: with the filter `bson.M{"status": "in-cart"}` and
an update that sets the status `done`, the first call on a store with two orders in the
cart updates the first of them and the second call updates the other, so the store
after two calls is not the store after one; and on a store with one order in the cart
the first call succeeds and the second fails with "no data updated". -/
theorem UpdateOrder_not_idempotent :
    (UpdateOrder [orderA, orderC] (M.matches filterInCart) updateStatusDone none).2.map
      (fun d => d.Status) = ["done", "in-cart"] ∧
    (UpdateOrder
      (UpdateOrder [orderA, orderC] (M.matches filterInCart) updateStatusDone none).2
      (M.matches filterInCart) updateStatusDone none).2.map
      (fun d => d.Status) = ["done", "done"] ∧
    (UpdateOrder [orderA, orderB] (M.matches filterInCart) updateStatusDone none).1 = none ∧
    (UpdateOrder
      (UpdateOrder [orderA, orderB] (M.matches filterInCart) updateStatusDone none).2
      (M.matches filterInCart) updateStatusDone none).1 =
        some (.errorf "no data updated") := by
  decide

/-- C26 as amended: `UpdateOrder` is idempotent whenever applying the merge set does
not change which records the filter selects: the second of two equal calls then
returns the same result as the first and leaves the store as the first left it.  That
is so for every filter on the order number, which the merge set never binds. -/
theorem UpdateOrder_idempotent_when_stable (oc : Collection) (p : Order)
    (fault : Option String) :
    (∀ filter : Filter, (∀ d, filter (applySet d (UpdateOrder.value p)) = filter d) →
      UpdateOrder (UpdateOrder oc filter p fault).2 filter p fault =
        UpdateOrder oc filter p fault) ∧
    (∀ n : String,
      UpdateOrder (UpdateOrder oc (byOrderNumber n) p fault).2 (byOrderNumber n) p fault =
        UpdateOrder oc (byOrderNumber n) p fault) := by
  refine ⟨fun filter hstable => UpdateOrder_twice oc filter p fault hstable, ?_⟩
  intro n
  apply UpdateOrder_twice
  intro d
  have hno : List.lookup "order_number" (UpdateOrder.value p) = none := by
    simp [UpdateOrder.value_lookup]
  simp [byOrderNumber, applySet, hno]

/-- Witness of the amended C26: the filter on the buyer is not changed by an update of
the status. -/
theorem UpdateOrder_idempotent_when_stable_witness :
    UpdateOrder
      (UpdateOrder [orderA, orderB] (M.matches filterBuyerOne) updateStatusDone none).2
      (M.matches filterBuyerOne) updateStatusDone none =
    UpdateOrder [orderA, orderB] (M.matches filterBuyerOne) updateStatusDone none :=
  (UpdateOrder_idempotent_when_stable [orderA, orderB] updateStatusDone none).1
    (M.matches filterBuyerOne) (by
      intro d
      have hb : List.lookup "buyer_id" (UpdateOrder.value updateStatusDone) = none := by
        decide
      simp [M.matches, filterBuyerOne, M.keys, List.lookup, Order.field, applySet, hb])

/-! ## Theorems: internal/middleware -/

/-- A string without an occurrence of the separator is a single piece. -/
theorem Split.go_of_not_contains (sep : List Char) (s : List Char)
    (h : ∀ pre post : List Char, s ≠ pre ++ sep ++ post) (cur : List Char) :
    Split.go sep s cur 0 = [cur.reverse ++ s] := by
  induction s generalizing cur with
  | nil => simp [Split.go]
  | cons c cs ih =>
    have hnot : sep.isPrefixOf (c :: cs) = false := by
      by_contra hp
      have hp' : sep.isPrefixOf (c :: cs) = true := by simpa using hp
      obtain ⟨post, hpost⟩ := List.isPrefixOf_iff_prefix.1 hp'
      exact h [] post (by simpa using hpost.symm)
    have hcs : ∀ pre post : List Char, cs ≠ pre ++ sep ++ post := by
      intro pre post heq
      exact h (c :: pre) post (by simp [heq])
    simp [Split.go, hnot, ih hcs]

/-- The pieces of `Bearer ` followed by a string without the separator. -/
theorem Split_Bearer (t : String)
    (h : ∀ pre post : List Char, t.toList ≠ pre ++ "Bearer ".toList ++ post) :
    Split ("Bearer " ++ t) "Bearer " = ["", t] := by
  have hlist : ("Bearer " ++ t).toList = 'B' :: ("earer ".toList ++ t.toList) := rfl
  have hpre : "Bearer ".toList.isPrefixOf ('B' :: ("earer ".toList ++ t.toList)) = true := by
    apply List.isPrefixOf_iff_prefix.2
    exact ⟨t.toList, rfl⟩
  have hrest := Split.go_of_not_contains "Bearer ".toList t.toList h []
  unfold Split
  rw [hlist]
  simp only [Split.go, hpre, if_true]
  have hnil : ([] : List Char).append t.toList = t.toList := rfl
  rw [hnil, hrest]
  rfl

/-- C27: `GetTokenFromHeader` returns the empty string when the `Authorization` value is
empty and when it does not contain the separator `Bearer `; for a value that is
`Bearer ` followed by a token without the separator it returns exactly the token; and
`AuthorizationMiddleware` ends the request with status 403 whenever the token it
extracts is empty, whatever the account service would answer. -/
theorem GetTokenFromHeader_spec (header : Header) :
    (header.Get "Authorization" = "" → GetTokenFromHeader header = "") ∧
    ((∀ pre post : List Char,
        (header.Get "Authorization").toList ≠ pre ++ "Bearer ".toList ++ post) →
      GetTokenFromHeader header = "") ∧
    (∀ t : String, header.Get "Authorization" = "Bearer " ++ t →
      (∀ pre post : List Char, t.toList ≠ pre ++ "Bearer ".toList ++ post) →
      GetTokenFromHeader header = t) ∧
    (GetTokenFromHeader header = "" → ∀ auth, AuthorizationMiddleware header auth =
      .error { status := 403, body := .message "Token authorization empty/not found" }) := by
  refine ⟨?_, ?_, ?_, ?_⟩
  · intro h
    simp [GetTokenFromHeader, h]
  · intro h
    have hsplit : Split (header.Get "Authorization") "Bearer " =
        [String.mk ([].reverse ++ (header.Get "Authorization").toList)] := by
      unfold Split
      rw [Split.go_of_not_contains _ _ h []]
      rfl
    simp [GetTokenFromHeader, hsplit]
  · intro t hraw h
    have hne : ("Bearer " ++ t) ≠ "" := by
      intro he
      have := congrArg String.toList he
      have hl : ("Bearer " ++ t).toList = 'B' :: ("earer ".toList ++ t.toList) := rfl
      rw [hl] at this
      cases this
    simp [GetTokenFromHeader, hraw, hne, Split_Bearer t h]
  · intro h auth
    simp [AuthorizationMiddleware, h]

/-- Witness of C27: the header `Bearer abc` yields the token `abc`; a request without
the header is rejected with 403. -/
theorem GetTokenFromHeader_spec_witness :
    GetTokenFromHeader [("Authorization", "Bearer abc")] = "abc" ∧
    AuthorizationMiddleware [] (.response 200 (.ok userBuyer)) =
      .error { status := 403, body := .message "Token authorization empty/not found" } :=
  ⟨(GetTokenFromHeader_spec [("Authorization", "Bearer abc")]).2.2.1 "abc" (by decide)
      (by
        intro pre post heq
        have hlen := congrArg List.length heq
        simp at hlen
        omega),
   (GetTokenFromHeader_spec []).2.2.2 ((GetTokenFromHeader_spec []).1 (by decide)) _⟩

/-! ## Theorems: DeleteOrder removes one record, image paths, validity after update -/

/-- C28: after a `DeleteOrder` that returned no error the store is the previous store
with at most one record removed: either it is unchanged and the filter selected no
record, or exactly one record is gone, that record was selected by the filter and was
the first such, and all other records, selected or not, are there as before and in
the same order. -/
theorem DeleteOrder_removes_at_most_one (oc : Collection) (filter : Filter)
    (fault : Option String) (hok : (DeleteOrder oc filter fault).1 = none) :
    ((DeleteOrder oc filter fault).2 = oc ∧ ∀ d ∈ oc, filter d = false) ∨
    ∃ pre r post, oc = pre ++ r :: post ∧ filter r = true ∧
      (∀ d ∈ pre, filter d = false) ∧ (DeleteOrder oc filter fault).2 = pre ++ post := by
  cases fault with
  | some msg => simp [DeleteOrder, DeleteOne] at hok
  | none =>
    have hstore : (DeleteOrder oc filter none).2 = oc.eraseP filter := by
      simp [DeleteOrder, DeleteOne]
    rw [hstore]
    by_cases hex : ∃ d ∈ oc, filter d = true
    · obtain ⟨d, hd, hfd⟩ := hex
      obtain ⟨r, pre, post, hpre, hr, hoc, herase⟩ := List.exists_of_eraseP hd hfd
      refine Or.inr ⟨pre, r, post, hoc, hr, ?_, herase⟩
      intro x hx
      simpa using hpre x hx
    · refine Or.inl ⟨?_, ?_⟩
      · apply List.eraseP_of_forall_not
        intro d hd hfd
        exact hex ⟨d, hd, hfd⟩
      · intro d hd
        by_contra hfd
        exact hex ⟨d, hd, by simpa using hfd⟩

/-- Witness of C28: deleting by the buyer filter, which selects both stored orders,
removes the first of them only. -/
theorem DeleteOrder_removes_at_most_one_witness :
    (DeleteOrder [orderA, orderB] (M.matches filterBuyerOne) none).2 = [orderB] := by
  rcases DeleteOrder_removes_at_most_one [orderA, orderB] (M.matches filterBuyerOne) none
    (by decide) with ⟨-, hno⟩ | ⟨pre, r, post, -, -, -, -⟩
  · exact absurd (hno orderA (by decide)) (by decide)
  · decide

/-- The field `ProductImagesPath` after the merge set of `p` is applied to `r`. -/
theorem applySet_value_ProductImagesPath (r p : Order) :
    (applySet r (UpdateOrder.value p)).ProductImagesPath =
      (match p.ProductImagesPath with
       | some l => some l
       | none => r.ProductImagesPath) := by
  cases h : p.ProductImagesPath <;> simp [applySet, UpdateOrder.value_lookup, h]

/-- C29: when the filter selects the stored record `r` and no record before it (so in
particular when `r` is the one record it selects), `UpdateOrder` with an update order
whose image-path list is nil leaves the stored image paths of `r` as they were, and
with a non-nil list, the empty list included, makes them that list, in the same
order. -/
theorem UpdateOrder_image_paths (pre post : Collection) (r p : Order) (filter : Filter)
    (hr : filter r = true) (hpre : ∀ d ∈ pre, filter d = false) :
    ∃ r', UpdateOrder (pre ++ r :: post) filter p none = (none, pre ++ r' :: post) ∧
      (p.ProductImagesPath = none → r'.ProductImagesPath = r.ProductImagesPath) ∧
      (∀ l, p.ProductImagesPath = some l → r'.ProductImagesPath = some l) := by
  have hany : (pre ++ r :: post).any filter = true := by simp [hr]
  refine ⟨applySet r (UpdateOrder.value p), ?_, ?_, ?_⟩
  · simp only [UpdateOrder, UpdateOne, hany, updateFirst_append filter _ pre post r hpre hr]
    simp
  · intro h
    rw [applySet_value_ProductImagesPath, h]
  · intro l h
    rw [applySet_value_ProductImagesPath, h]

/-- Witness of C29: the empty, non-nil list replaces the two stored image paths. -/
theorem UpdateOrder_image_paths_witness :
    (UpdateOrder ([orderA] ++ orderNewStored :: []) (byOrderNumber "111111111111111")
        updateNoImages none).2.map (fun d => d.ProductImagesPath) =
      [none, some []] := by
  obtain ⟨r', h, -, hsome⟩ :=
    UpdateOrder_image_paths [orderA] [] orderNewStored updateNoImages
      (byOrderNumber "111111111111111") (by decide) (by decide)
  rw [h]
  have h' : r'.ProductImagesPath = some [] := hsome [] rfl
  simp [h', orderA, Order.zero]

/-- No error from `IsOrderValid` means that none of its six guards fires. -/
theorem IsOrderValid_none (o : Order) :
    IsOrderValid o = none ↔
      TrimSpace o.Status ≠ "" ∧ o.Qty ≠ 0 ∧ o.TotalPrice.isZero = false ∧
      TrimSpace o.ProductName ≠ "" ∧ o.ProductPrice.isZero = false ∧
      o.ProductWeight.isZero = false := by
  unfold IsOrderValid
  by_cases h1 : TrimSpace o.Status = ""
  · simp [h1]
  by_cases h2 : o.Qty = 0
  · simp [h1, h2]
  by_cases h3 : o.TotalPrice.isZero = true
  · simp [h1, h2, h3]
  by_cases h4 : TrimSpace o.ProductName = ""
  · simp [h1, h2, h3, h4]
  by_cases h5 : o.ProductPrice.isZero = true
  · simp [h1, h2, h3, h4, h5]
  by_cases h6 : o.ProductWeight.isZero = true
  · simp [h1, h2, h3, h4, h5, h6]
  simp [h1, h2, h3, h4, h5, h6]

/-- C30, refuted at a concrete input: the stored order `orderNewStored` passes
`IsOrderValid`; an `UpdateOrder` whose update order has a status of one space succeeds,
and the stored order then fails `IsOrderValid` on its status. -/
theorem UpdateOrder_can_blank_status :
    IsOrderValid orderNewStored = none ∧
    (UpdateOrder [orderNewStored] (byOrderNumber "111111111111111") updateStatusBlank
      none).1 = none ∧
    (UpdateOrder [orderNewStored] (byOrderNumber "111111111111111") updateStatusBlank
      none).2.map IsOrderValid = [some (.errorf "status empty/not found")] := by
  decide

/-- C30 as amended: when the stored order `r` passes `IsOrderValid` and the status and
the product name of the update order are each either empty or not blank after
trimming, the stored order after a successful `UpdateOrder` still passes
`IsOrderValid`: an update cannot zero a mandatory number nor empty a mandatory
string. -/
theorem UpdateOrder_keeps_valid (pre post : Collection) (r p : Order) (filter : Filter)
    (hr : filter r = true) (hpre : ∀ d ∈ pre, filter d = false)
    (hvalid : IsOrderValid r = none)
    (hstatus : p.Status = "" ∨ TrimSpace p.Status ≠ "")
    (hname : p.ProductName = "" ∨ TrimSpace p.ProductName ≠ "") :
    ∃ r', UpdateOrder (pre ++ r :: post) filter p none = (none, pre ++ r' :: post) ∧
      IsOrderValid r' = none := by
  have hany : (pre ++ r :: post).any filter = true := by simp [hr]
  refine ⟨applySet r (UpdateOrder.value p), ?_, ?_⟩
  · simp only [UpdateOrder, UpdateOne, hany, updateFirst_append filter _ pre post r hpre hr]
    simp
  · obtain ⟨v1, v2, v3, v4, v5, v6⟩ := (IsOrderValid_none r).1 hvalid
    rw [IsOrderValid_none, applySet_value_Status, applySet_value_Qty,
      applySet_value_TotalPrice, applySet_value_ProductName, applySet_value_ProductPrice,
      applySet_value_ProductWeight]
    refine ⟨?_, ?_, ?_, ?_, ?_, ?_⟩
    · rcases hstatus with h | h
      · simpa [h] using v1
      · by_cases he : p.Status = ""
        · simpa [he] using v1
        · simpa [he] using h
    · by_cases h : p.Qty = 0
      · simpa [h] using v2
      · simp [h]
    · by_cases h : p.TotalPrice.isZero = true
      · simpa [h] using v3
      · simp [h]
    · rcases hname with h | h
      · simpa [h] using v4
      · by_cases he : p.ProductName = ""
        · simpa [he] using v4
        · simpa [he] using h
    · by_cases h : p.ProductPrice.isZero = true
      · simpa [h] using v5
      · simp [h]
    · by_cases h : p.ProductWeight.isZero = true
      · simpa [h] using v6
      · simp [h]

/-- Witness of the amended C30: the update to the status `done` keeps `orderNewStored`
valid. -/
theorem UpdateOrder_keeps_valid_witness :
    (UpdateOrder ([] ++ orderNewStored :: []) (byOrderNumber "111111111111111")
      updateStatusDone none).2.map IsOrderValid = [none] := by
  obtain ⟨r', h, hv⟩ :=
    UpdateOrder_keeps_valid [] [] orderNewStored updateStatusDone
      (byOrderNumber "111111111111111") (by decide) (by decide) (by decide)
      (Or.inr (by decide)) (Or.inl (by decide))
  rw [h]
  simp [hv]

end OrderService
